import Mathlib

/-!
Year-2038 time offset: a shallow embedding of `year2038.h` and `TestY2038.c`.

* Values of `unsigned long` are natural numbers below `2 ^ ulBits`; the width
  `ulBits` is a platform parameter (32 on ILP32, 64 on LP64).
* Values of `int` and of the `struct tm` fields are integers in the 32-bit
  two's complement range.  A conversion of an out-of-range value to `int` or
  to `time_t` wraps (the behaviour every mainstream compiler documents);
  signed arithmetic that overflows is undefined in C and is reported as
  `none`.
* `time_t` is a signed integer of `timeBytes` bytes, `sizeof(time_t)`.
* `(int)difftime(a, b)` is the difference `a - b` when it fits `int`; ISO C leaves the
  conversion of any other value open, and the compiled code yields `INT_MIN` for it.
* The global `g_nY2038OffsetActive` and the system clock are an explicit state.
-/

namespace Y2038

/-! ## Machine integers -/

/-- Conversion to an unsigned type of `bits` bits: reduction modulo `2 ^ bits`. -/
def toUnsigned (bits : Nat) (x : Int) : Nat := (x % (2 : Int) ^ bits).toNat

/-- Conversion to a signed type of `bits` bits: two's complement wrap. -/
def toSigned (bits : Nat) (x : Int) : Int :=
  (x + (2 : Int) ^ (bits - 1)) % (2 : Int) ^ bits - (2 : Int) ^ (bits - 1)

/-- Conversion to `int` (32 bits). -/
def toInt (x : Int) : Int := toSigned 32 x

/-- Result of an arithmetic operation on `int`: defined only when it is representable. -/
def chkInt (x : Int) : Option Int :=
  if -2147483648 ≤ x ∧ x ≤ 2147483647 then some x else none

/-- The macro `Y2038_TIME_OFFSET`. -/
def Y2038_TIME_OFFSET : Nat := 0x7fffffff

/-! ## `struct tm` -/

/-- The fields of `struct tm` that `UnixTimeToTm` writes. -/
structure Tm where
  tm_sec : Int
  tm_min : Int
  tm_hour : Int
  tm_mday : Int
  tm_mon : Int
  tm_year : Int
  tm_wday : Int
  tm_yday : Int
  tm_isdst : Int
  deriving DecidableEq, Repr

/-! ## `UnixTimeToTm` -/

/-- The `int` expression
`((year - 1) - 1968) / 4 - ((year - 1) - 1900) / 100 + ((year - 1) - 1600) / 400`;
`/` on `int` truncates toward zero. -/
def leap_years (year : Int) : Option Int := do
  let y1 ← chkInt (year - 1)
  let a ← chkInt (y1 - 1968)
  let b ← chkInt (y1 - 1900)
  let c ← chkInt (y1 - 1600)
  let d ← chkInt (a.tdiv 4 - b.tdiv 100)
  chkInt (d + c.tdiv 400)

/-- The expression `(year - 1970) * 365 + leap_years`, where `leap_years` is an
`unsigned long`: the product is formed in `int`, then converted. -/
def days_in_years (w : Nat) (year : Int) (leap : Nat) : Option Nat := do
  let d ← chkInt (year - 1970)
  let m ← chkInt (d * 365)
  some (toUnsigned w (m + leap))

/-- The loop `while (days_in_years > days) { year--; ... }`.  Each round decrements
an `int`, so `2 ^ 32` rounds of fuel cannot run out before the decrement overflows. -/
def adjustYear (w : Nat) (days : Nat) : Nat → Int → Nat → Option (Int × Nat)
  | 0, _, _ => none
  | fuel + 1, year, diy =>
    if diy > days then do
      let year1 ← chkInt (year - 1)
      let leap ← leap_years year1
      let diy1 ← days_in_years w year1 (toUnsigned w leap)
      adjustYear w days fuel year1 diy1
    else some (year, diy)

/-- The expression `(year % 4 == 0 && year % 100 != 0) || (year % 400 == 0)`. -/
def is_leap (year : Int) : Bool :=
  (year.tmod 4 == 0 && year.tmod 100 != 0) || year.tmod 400 == 0

/-- The table `days_in_month[2][12]`, indexed by `is_leap`. -/
def days_in_month (leap : Bool) : List Nat :=
  if leap then [31, 29, 31, 30, 31, 30, 31, 31, 30, 31, 30, 31]
  else [31, 28, 31, 30, 31, 30, 31, 31, 30, 31, 30, 31]

/-- The loop `while (mon < 12 && yday >= days_in_month[is_leap][mon])`, over the
entries of the table that are still ahead; it returns `(mon, yday)`. -/
def monthWalk : List Nat → Nat → Nat → Nat × Nat
  | [], mon, yday => (mon, yday)
  | d :: rest, mon, yday =>
    if yday ≥ d then monthWalk rest (mon + 1) (yday - d) else (mon, yday)

/-- The function `UnixTimeToTm(ulTime, result)`; `w` is the width of `unsigned long`. -/
def UnixTimeToTm (w : Nat) (ulTime : Nat) : Option Tm := do
  let days : Nat := ulTime / 86400
  let seconds : Nat := ulTime % 86400
  let hour : Nat := seconds / 3600
  let min : Nat := seconds % 3600 / 60
  let sec : Nat := seconds % 60
  let wday : Nat := toUnsigned w ((days : Int) + 4) % 7
  let guess : Nat := toUnsigned w (1970 + ((days / 365 : Nat) : Int))
  let year0 : Int := toInt (guess : Int)
  let leap0 ← leap_years year0
  let diy0 ← days_in_years w year0 (toUnsigned w leap0)
  let (year, diy) ← adjustYear w days (2 ^ 32) year0 diy0
  let tm_year ← chkInt (year - 1900)
  let yday : Nat := toUnsigned w ((days : Int) - (diy : Int))
  let (mon, rest) := monthWalk (days_in_month (is_leap year)) 0 yday
  let mday : Nat := toUnsigned w ((rest : Int) + 1)
  some
    { tm_sec := toInt (sec : Int)
      tm_min := toInt (min : Int)
      tm_hour := toInt (hour : Int)
      tm_mday := toInt (mday : Int)
      tm_mon := toInt (mon : Int)
      tm_year := tm_year
      tm_wday := toInt (wday : Int)
      tm_yday := toInt (yday : Int)
      tm_isdst := -1 }

/-! ## The offset controller -/

/-- The two platform facts the code depends on. -/
structure Platform where
  /-- The width of `unsigned long` in bits. -/
  ulBits : Nat
  /-- The value of `sizeof(time_t)`. -/
  timeBytes : Nat
  deriving DecidableEq, Repr

/-- The global flag `g_nY2038OffsetActive` and the system clock read by `time(NULL)`. -/
structure State where
  g_nY2038OffsetActive : Int
  clock : Int
  deriving DecidableEq, Repr

/-- The function `GetRealTimeUL()`; it returns its value and the state it leaves. -/
def GetRealTimeUL (p : Platform) (st : State) : Nat × State :=
  let tOsTime := st.clock
  let ulOsTime := toUnsigned p.ulBits tOsTime
  if st.g_nY2038OffsetActive ≠ 0 then
    (toUnsigned p.ulBits ((ulOsTime : Int) + Y2038_TIME_OFFSET), st)
  else (ulOsTime, st)

/-- How a call of `TestTimeSync` ends. -/
inductive Outcome where
  /-- The early `return` after "still out of range after offset". -/
  | rangeError
  /-- The difference is within 2 seconds: `clock_settime` is not called. -/
  | inTolerance
  /-- The call `clock_settime(CLOCK_REALTIME, &stime)` with its argument and whether it succeeded. -/
  | clockSet (tv_sec tv_nsec : Int) (ok : Bool)
  deriving DecidableEq, Repr

/-- What a call of `TestTimeSync` leaves: the state, the local `tOsTime`, and how it ended. -/
structure SyncResult where
  state : State
  tOsTime : Int
  outcome : Outcome
  deriving DecidableEq, Repr

/-- The expression `(int)difftime(tNow, tOsTime)`: the difference when it fits `int`.  A
difference that does not fit is converted by the compiled code to `INT_MIN`, the
out-of-range result of the conversion instruction. -/
def nDiffTime (tNow tOsTime : Int) : Int :=
  if -2147483648 ≤ tNow - tOsTime ∧ tNow - tOsTime ≤ 2147483647 then tNow - tOsTime
  else -2147483648

/-- Lines 53-95 of `TestTimeSync`: compare with the clock and set it when the gap exceeds
2 seconds.  `ok` tells whether `clock_settime` succeeds; a successful call makes the clock
equal to `tv_sec`. -/
def syncClock (ok : Bool) (st : State) (tOsTime : Int) : SyncResult :=
  let tNow := st.clock
  let d := nDiffTime tNow tOsTime
  if d > 2 ∨ d < -2 then
    if ok then
      { state := { st with clock := tOsTime }, tOsTime := tOsTime,
        outcome := .clockSet tOsTime 0 true }
    else { state := st, tOsTime := tOsTime, outcome := .clockSet tOsTime 0 false }
  else { state := st, tOsTime := tOsTime, outcome := .inTolerance }

/-- The function `TestTimeSync(ulDateTime)`. -/
def TestTimeSync (p : Platform) (ok : Bool) (st : State) (ulDateTime : Nat) : SyncResult :=
  if ulDateTime > Y2038_TIME_OFFSET ∧ p.timeBytes = 4 then
    let st1 : State :=
      if st.g_nY2038OffsetActive = 0 then { st with g_nY2038OffsetActive := 1 } else st
    let tOsTime :=
      toSigned (8 * p.timeBytes)
        (toUnsigned p.ulBits ((ulDateTime : Int) - Y2038_TIME_OFFSET))
    if tOsTime > Y2038_TIME_OFFSET ∨ tOsTime < 0 then
      { state := st1, tOsTime := tOsTime, outcome := .rangeError }
    else syncClock ok st1 tOsTime
  else
    let tOsTime := toSigned (8 * p.timeBytes) ulDateTime
    let st1 : State :=
      if st.g_nY2038OffsetActive ≠ 0 ∧ ulDateTime ≤ Y2038_TIME_OFFSET then
        { st with g_nY2038OffsetActive := 0 }
      else st
    syncClock ok st1 tOsTime

/-! ## Calendar arithmetic in which the properties are stated -/

/-- The Gregorian rule: divisible by 4 and not by 100, or divisible by 400. -/
def isLeapYear (y : Nat) : Bool := (y % 4 == 0 && y % 100 != 0) || y % 400 == 0

/-- The number of days of year `y`. -/
def yearLength (y : Nat) : Nat := if isLeapYear y then 366 else 365

/-- The number of days of the `n` years that start with 1970. -/
def daysFrom1970 : Nat → Nat
  | 0 => 0
  | n + 1 => daysFrom1970 n + yearLength (1970 + n)

/-- The number of days from 1970-01-01 to January 1 of year `y`. -/
def daysBeforeYear (y : Nat) : Nat := daysFrom1970 (y - 1970)

/-- The number of days of the month with zero-based index `m`. -/
def monthLength (leap : Bool) (m : Nat) : Nat :=
  match m with
  | 0 => 31
  | 1 => if leap then 29 else 28
  | 2 => 31
  | 3 => 30
  | 4 => 31
  | 5 => 30
  | 6 => 31
  | 7 => 31
  | 8 => 30
  | 9 => 31
  | 10 => 30
  | 11 => 31
  | _ => 0

/-- The number of days of the months before the month with index `m`. -/
def daysBeforeMonth (leap : Bool) : Nat → Nat
  | 0 => 0
  | m + 1 => daysBeforeMonth leap m + monthLength leap m

/-- Seconds since the epoch rebuilt from the fields of a `struct tm`: days before the year
`tm_year + 1900`, days of the months before `tm_mon`, `tm_mday - 1`, and the time of day. -/
def secondsFromTm (t : Tm) : Int :=
  let year := (t.tm_year + 1900).toNat
  ((daysBeforeYear year : Int) + daysBeforeMonth (isLeapYear year) t.tm_mon.toNat
      + (t.tm_mday - 1)) * 86400
    + t.tm_hour * 3600 + t.tm_min * 60 + t.tm_sec

/-- The timestamp of March 1, 00:00:00, of year `y`. -/
def marchFirst (y : Nat) : Nat :=
  (daysBeforeYear y + daysBeforeMonth (isLeapYear y) 2) * 86400

/-- The value of `days_in_years` for a year from 1970 on, in closed form:
`(year - 1970) * 365` plus the leap days counted by the three quotients. -/
def cumulativeDays (y : Nat) : Nat :=
  (y - 1970) * 365 + ((y - 1969) / 4 - (y - 1901) / 100 + (y - 1601) / 400)

/-- The first timestamp at which `(year - 1970) * 365` leaves the range of `int`:
`5883517 * 365 * 86400`. -/
def intYearLimit : Nat := 185542592112000

/-- The fields that `UnixTimeToTm` writes for `ulTime` when its loop stops at year `Y`,
written without machine conversions. -/
def tmOfYear (ulTime Y : Nat) : Tm :=
  let days := ulTime / 86400
  let seconds := ulTime % 86400
  let yday := days - cumulativeDays Y
  let mw := monthWalk (days_in_month (isLeapYear Y)) 0 yday
  { tm_sec := ((seconds % 60 : Nat) : Int)
    tm_min := ((seconds % 3600 / 60 : Nat) : Int)
    tm_hour := ((seconds / 3600 : Nat) : Int)
    tm_mday := ((mw.2 + 1 : Nat) : Int)
    tm_mon := (mw.1 : Int)
    tm_year := (Y : Int) - 1900
    tm_wday := (((days + 4) % 7 : Nat) : Int)
    tm_yday := (yday : Int)
    tm_isdst := -1 }

/-- Lines 59-71 of `UnixTimeToTm` on their own: the guess `1970 + days / 365`, the first
`days_in_years`, and the adjustment loop; it returns the final `year` and `days_in_years`. -/
def yearLoop (w days : Nat) : Option (Int × Nat) := do
  let guess : Nat := toUnsigned w (1970 + ((days / 365 : Nat) : Int))
  let year0 : Int := toInt (guess : Int)
  let leap0 ← leap_years year0
  let diy0 ← days_in_years w year0 (toUnsigned w leap0)
  adjustYear w days (2 ^ 32) year0 diy0

/-- The order of two `struct tm` values read as the tuple
(year, month, day of month, hour, minute, second), lexicographically. -/
def tmBefore (a b : Tm) : Prop :=
  a.tm_year < b.tm_year ∨ (a.tm_year = b.tm_year ∧
    (a.tm_mon < b.tm_mon ∨ (a.tm_mon = b.tm_mon ∧
      (a.tm_mday < b.tm_mday ∨ (a.tm_mday = b.tm_mday ∧
        (a.tm_hour < b.tm_hour ∨ (a.tm_hour = b.tm_hour ∧
          (a.tm_min < b.tm_min ∨ (a.tm_min = b.tm_min ∧ a.tm_sec < b.tm_sec)))))))))

instance (a b : Tm) : Decidable (tmBefore a b) := by
  unfold tmBefore
  infer_instance

/-- Whether a call of `TestTimeSync` reached `clock_settime`. -/
def Outcome.isClockSet : Outcome → Bool
  | .clockSet _ _ _ => true
  | _ => false

/-! ## Machine integers: conversions that do not wrap -/

theorem toUnsigned_of_lt (bits : Nat) (x : Int) (h0 : 0 ≤ x) (h : x < (2 : Int) ^ bits) :
    (toUnsigned bits x : Int) = x := by
  unfold toUnsigned
  rw [Int.emod_eq_of_lt h0 h, Int.toNat_of_nonneg h0]

theorem toUnsigned_natCast (bits x : Nat) (h : x < 2 ^ bits) :
    toUnsigned bits (x : Int) = x := by
  have h1 : ((x : Int)) < (2 : Int) ^ bits := by exact_mod_cast h
  have := toUnsigned_of_lt bits x (by positivity) h1
  exact_mod_cast this

theorem toSigned_of_range (bits : Nat) (x : Int) (hb : 1 ≤ bits)
    (h0 : -(2 : Int) ^ (bits - 1) ≤ x) (h1 : x < (2 : Int) ^ (bits - 1)) :
    toSigned bits x = x := by
  unfold toSigned
  have hp : (2 : Int) ^ bits = 2 * (2 : Int) ^ (bits - 1) := by
    conv_lhs => rw [show bits = (bits - 1) + 1 by omega]
    rw [pow_succ]; ring
  rw [Int.emod_eq_of_lt (by omega) (by omega)]
  omega

theorem toInt_of_range (x : Int) (h0 : -2147483648 ≤ x) (h1 : x ≤ 2147483647) :
    toInt x = x := by
  unfold toInt
  apply toSigned_of_range 32 x (by decide) <;> norm_num <;> omega

theorem two_pow_31_le (bits : Nat) (h : 32 ≤ bits) :
    (2147483648 : Int) ≤ (2 : Int) ^ (bits - 1) := by
  have : (2 : Int) ^ 31 ≤ (2 : Int) ^ (bits - 1) :=
    pow_le_pow_right₀ (by norm_num) (by omega)
  norm_num at this
  exact this

theorem two_pow_32_le (bits : Nat) (h : 32 ≤ bits) :
    (4294967296 : Int) ≤ (2 : Int) ^ bits := by
  have : (2 : Int) ^ 32 ≤ (2 : Int) ^ bits := pow_le_pow_right₀ (by norm_num) h
  norm_num at this
  exact this

/-! ## Calendar arithmetic: lemmas -/

theorem isLeapYear_iff (y : Nat) :
    isLeapYear y = true ↔ (y % 4 = 0 ∧ y % 100 ≠ 0) ∨ y % 400 = 0 := by
  simp [isLeapYear]

theorem yearLength_pos (y : Nat) : 365 ≤ yearLength y ∧ yearLength y ≤ 366 := by
  unfold yearLength
  split_ifs <;> omega

/-- One more year adds the length of that year to the closed form. -/
theorem cumulativeDays_succ (y : Nat) (h : 1970 ≤ y) :
    cumulativeDays (y + 1) = cumulativeDays y + yearLength y := by
  unfold cumulativeDays yearLength
  by_cases hl : isLeapYear y = true
  · rw [if_pos hl]
    rw [isLeapYear_iff] at hl
    omega
  · rw [if_neg hl]
    rw [isLeapYear_iff] at hl
    omega

theorem cumulativeDays_1970 : cumulativeDays 1970 = 0 := by decide

/-- The closed form counts the days of the years from 1970 up to `y`. -/
theorem daysBeforeYear_eq (y : Nat) (h : 1970 ≤ y) : daysBeforeYear y = cumulativeDays y := by
  obtain ⟨n, rfl⟩ : ∃ n, y = 1970 + n := ⟨y - 1970, by omega⟩
  unfold daysBeforeYear
  rw [show 1970 + n - 1970 = n by omega]
  induction n with
  | zero => rfl
  | succ k ih =>
    rw [daysFrom1970, ih (by omega), show 1970 + (k + 1) = (1970 + k) + 1 by omega,
      cumulativeDays_succ _ (by omega)]

theorem cumulativeDays_le (a b : Nat) (ha : 1970 ≤ a) (hab : a ≤ b) :
    cumulativeDays a ≤ cumulativeDays b := by
  induction b with
  | zero => omega
  | succ k ih =>
    by_cases hk : a = k + 1
    · rw [hk]
    · have := ih (by omega)
      rw [cumulativeDays_succ k (by omega)]
      omega

/-- The year of a day count is unique. -/
theorem cumulativeDays_unique (a b d : Nat) (ha : 1970 ≤ a) (hb : 1970 ≤ b)
    (ha1 : cumulativeDays a ≤ d) (ha2 : d < cumulativeDays (a + 1))
    (hb1 : cumulativeDays b ≤ d) (hb2 : d < cumulativeDays (b + 1)) : a = b := by
  by_contra hne
  rcases Nat.lt_or_gt_of_ne hne with h | h
  · have := cumulativeDays_le (a + 1) b (by omega) (by omega)
    omega
  · have := cumulativeDays_le (b + 1) a (by omega) (by omega)
    omega

theorem cumulativeDays_lower (y : Nat) : (y - 1970) * 365 ≤ cumulativeDays y := by
  unfold cumulativeDays
  omega

theorem cumulativeDays_upper (y : Nat) (h : 1970 ≤ y) :
    cumulativeDays y ≤ (y - 1970) * 365 + (y - 1601) / 4 := by
  unfold cumulativeDays
  omega

set_option maxRecDepth 100000 in
/-- The month walk over either row of the table, for every day of the year: it stops inside
the table, on the month that holds the day. -/
theorem monthWalk_table (leap : Bool) :
    ∀ yd : Nat, yd < (if leap then 366 else 365) →
      (monthWalk (days_in_month leap) 0 yd).1 < 12
        ∧ (monthWalk (days_in_month leap) 0 yd).2
            < monthLength leap (monthWalk (days_in_month leap) 0 yd).1
        ∧ daysBeforeMonth leap (monthWalk (days_in_month leap) 0 yd).1
            + (monthWalk (days_in_month leap) 0 yd).2 = yd := by
  cases leap <;> decide

theorem monthLength_le (leap : Bool) (m : Nat) : monthLength leap m ≤ 31 := by
  unfold monthLength
  split <;> try split_ifs
  all_goals omega

theorem is_leap_natCast (y : Nat) : is_leap (y : Int) = isLeapYear y := by
  have h4 : (y : Int).tmod 4 = ((y % 4 : Nat) : Int) := by
    rw [Int.tmod_eq_emod (by positivity) (by norm_num)]; omega
  have h100 : (y : Int).tmod 100 = ((y % 100 : Nat) : Int) := by
    rw [Int.tmod_eq_emod (by positivity) (by norm_num)]; omega
  have h400 : (y : Int).tmod 400 = ((y % 400 : Nat) : Int) := by
    rw [Int.tmod_eq_emod (by positivity) (by norm_num)]; omega
  unfold is_leap isLeapYear
  rw [h4, h100, h400, Bool.eq_iff_iff]
  simp only [Bool.or_eq_true, Bool.and_eq_true, beq_iff_eq, bne_iff_ne, ne_eq]
  omega

/-! ## The offset controller: lemmas -/

theorem syncClock_tOsTime (ok : Bool) (st : State) (t : Int) :
    (syncClock ok st t).tOsTime = t := by
  simp only [syncClock]
  split_ifs <;> rfl

theorem syncClock_flag (ok : Bool) (st : State) (t : Int) :
    (syncClock ok st t).state.g_nY2038OffsetActive = st.g_nY2038OffsetActive := by
  simp only [syncClock]
  split_ifs <;> rfl

theorem syncClock_ne_rangeError (ok : Bool) (st : State) (t : Int) :
    (syncClock ok st t).outcome ≠ Outcome.rangeError := by
  simp only [syncClock]
  split_ifs <;> simp

theorem syncClock_clock_of_set (ok : Bool) (st : State) (t a b : Int)
    (h : (syncClock ok st t).outcome = Outcome.clockSet a b true) :
    (syncClock ok st t).state.clock = t := by
  simp only [syncClock] at h ⊢
  split_ifs at h ⊢ <;> simp_all

/-- The converted difference is beyond 2 seconds exactly when the difference is. -/
theorem nDiffTime_gap (tNow t : Int) :
    (nDiffTime tNow t > 2 ∨ nDiffTime tNow t < -2) ↔ (tNow - t > 2 ∨ tNow - t < -2) := by
  unfold nDiffTime
  split_ifs with h
  · exact Iff.rfl
  · constructor
    · intro _
      omega
    · intro _
      right
      decide

theorem syncClock_of_near (ok : Bool) (st : State) (t : Int)
    (h1 : st.clock - t ≤ 2) (h2 : -2 ≤ st.clock - t) :
    syncClock ok st t = { state := st, tOsTime := t, outcome := Outcome.inTolerance } := by
  have hn : ¬ (nDiffTime st.clock t > 2 ∨ nDiffTime st.clock t < -2) := by
    rw [nDiffTime_gap]
    omega
  simp only [syncClock, if_neg hn]

theorem offset_lt_two_pow (bits : Nat) (h : 32 ≤ bits) :
    (Y2038_TIME_OFFSET : Int) < (2 : Int) ^ (bits - 1) := by
  have := two_pow_31_le bits h
  simp only [Y2038_TIME_OFFSET]
  omega

/-- At or below the threshold the call takes the `else` branch: the flag is cleared and
the candidate is the input itself. -/
theorem TestTimeSync_low (p : Platform) (ok : Bool) (st : State) (real : Nat)
    (htb : 4 ≤ p.timeBytes) (hr : real ≤ Y2038_TIME_OFFSET) :
    TestTimeSync p ok st real
      = syncClock ok { g_nY2038OffsetActive := 0, clock := st.clock } real := by
  have hc : ¬ (real > Y2038_TIME_OFFSET ∧ p.timeBytes = 4) := by omega
  have ht : toSigned (8 * p.timeBytes) (real : Int) = real := by
    have h31 := offset_lt_two_pow (8 * p.timeBytes) (by omega)
    apply toSigned_of_range _ _ (by omega)
    · have : (0 : Int) < (2 : Int) ^ (8 * p.timeBytes - 1) := by positivity
      omega
    · have : (real : Int) ≤ (Y2038_TIME_OFFSET : Int) := by exact_mod_cast hr
      omega
  simp only [TestTimeSync, if_neg hc, ht]
  congr 1
  by_cases hf : st.g_nY2038OffsetActive = 0
  · rw [if_neg (by simp [hf])]
    cases st with
    | mk f c => simp only at hf; subst hf; rfl
  · rw [if_pos ⟨hf, hr⟩]

/-- Above the threshold and up to twice the threshold, on a platform with a 4-byte `time_t`,
the call activates the flag when it is inactive and the candidate `real - 0x7fffffff`
passes the range check. -/
theorem TestTimeSync_high (p : Platform) (ok : Bool) (st : State) (real : Nat)
    (htb : p.timeBytes = 4) (hul : 32 ≤ p.ulBits)
    (h1 : Y2038_TIME_OFFSET < real) (h2 : real ≤ 2 * Y2038_TIME_OFFSET) :
    TestTimeSync p ok st real
      = syncClock ok
          { g_nY2038OffsetActive :=
              if st.g_nY2038OffsetActive = 0 then 1 else st.g_nY2038OffsetActive,
            clock := st.clock }
          ((real : Int) - Y2038_TIME_OFFSET) := by
  have hc : real > Y2038_TIME_OFFSET ∧ p.timeBytes = 4 := ⟨h1, htb⟩
  have h1i : (Y2038_TIME_OFFSET : Int) < real := by exact_mod_cast h1
  have h2i : (real : Int) ≤ 2 * (Y2038_TIME_OFFSET : Int) := by exact_mod_cast h2
  have hT : (Y2038_TIME_OFFSET : Int) = 2147483647 := by simp [Y2038_TIME_OFFSET]
  have h32 := two_pow_32_le p.ulBits hul
  have hu : (toUnsigned p.ulBits ((real : Int) - Y2038_TIME_OFFSET) : Int)
      = (real : Int) - Y2038_TIME_OFFSET :=
    toUnsigned_of_lt _ _ (by omega) (by omega)
  have ht : toSigned (8 * p.timeBytes)
      (toUnsigned p.ulBits ((real : Int) - Y2038_TIME_OFFSET))
      = (real : Int) - Y2038_TIME_OFFSET := by
    rw [hu, htb]
    apply toSigned_of_range _ _ (by decide) <;> norm_num <;> omega
  have hok : ¬ ((real : Int) - Y2038_TIME_OFFSET > Y2038_TIME_OFFSET
      ∨ (real : Int) - Y2038_TIME_OFFSET < 0) := by omega
  simp only [TestTimeSync, if_pos hc, ht, if_neg hok]
  congr 1
  by_cases hf : st.g_nY2038OffsetActive = 0
  · simp only [if_pos hf]
  · simp only [if_neg hf]

/-! ## The offset controller: properties -/

/-- C2: on a platform with a 4-byte `time_t`, for every `real ≤ 2 * 0x7fffffff` and every
prior flag, when `TestTimeSync real` sets the clock to its candidate, `GetRealTimeUL` read
in the state it leaves returns `real`. -/
theorem C2_sync_then_GetRealTimeUL (p : Platform) (ok : Bool) (st : State) (real : Nat)
    (htb : p.timeBytes = 4) (hul : 32 ≤ p.ulBits)
    (hreal : real ≤ 2 * Y2038_TIME_OFFSET)
    (hset : (TestTimeSync p ok st real).outcome
      = Outcome.clockSet (TestTimeSync p ok st real).tOsTime 0 true) :
    (GetRealTimeUL p (TestTimeSync p ok st real).state).1 = real := by
  have h32 := two_pow_32_le p.ulBits hul
  have hT : (Y2038_TIME_OFFSET : Int) = 2147483647 := by simp [Y2038_TIME_OFFSET]
  have hri : (real : Int) ≤ 2 * (Y2038_TIME_OFFSET : Int) := by exact_mod_cast hreal
  by_cases hr : real ≤ Y2038_TIME_OFFSET
  · have e := TestTimeSync_low p ok st real (by omega) hr
    rw [e] at hset ⊢
    have hclock := syncClock_clock_of_set _ _ _ _ _ hset
    have hflag := syncClock_flag ok
      { g_nY2038OffsetActive := 0, clock := st.clock } (real : Int)
    simp only [GetRealTimeUL, hclock, hflag]
    simp only [ne_eq, not_true_eq_false, if_false]
    have := toUnsigned_of_lt p.ulBits (real : Int) (by positivity) (by omega)
    exact_mod_cast this
  · have h1 : Y2038_TIME_OFFSET < real := by omega
    have h1i : (Y2038_TIME_OFFSET : Int) < real := by exact_mod_cast h1
    have e := TestTimeSync_high p ok st real htb hul h1 hreal
    rw [e] at hset ⊢
    have hclock := syncClock_clock_of_set _ _ _ _ _ hset
    have hflag := syncClock_flag ok
      { g_nY2038OffsetActive :=
          if st.g_nY2038OffsetActive = 0 then 1 else st.g_nY2038OffsetActive,
        clock := st.clock } ((real : Int) - Y2038_TIME_OFFSET)
    have hne : (if st.g_nY2038OffsetActive = 0 then (1 : Int)
        else st.g_nY2038OffsetActive) ≠ 0 := by
      split_ifs with hz
      · decide
      · exact hz
    simp only [GetRealTimeUL, hclock, hflag, if_pos hne]
    have hu : (toUnsigned p.ulBits ((real : Int) - Y2038_TIME_OFFSET) : Int)
        = (real : Int) - Y2038_TIME_OFFSET :=
      toUnsigned_of_lt _ _ (by omega) (by omega)
    rw [hu]
    have := toUnsigned_of_lt p.ulBits
      ((real : Int) - Y2038_TIME_OFFSET + Y2038_TIME_OFFSET) (by omega) (by omega)
    have h3 : (real : Int) - Y2038_TIME_OFFSET + Y2038_TIME_OFFSET = real := by ring
    rw [h3] at this ⊢
    exact_mod_cast this

/-- C2 at a concrete input: ILP32, flag inactive, clock 0, `real = 0x7fffffff + 100`. -/
theorem C2_sync_then_GetRealTimeUL_witness :
    (GetRealTimeUL ⟨32, 4⟩ (TestTimeSync ⟨32, 4⟩ true ⟨0, 0⟩ 2147483747).state).1
      = 2147483747 :=
  C2_sync_then_GetRealTimeUL ⟨32, 4⟩ true ⟨0, 0⟩ 2147483747 rfl (by decide) (by decide)
    (by decide)

/-- C3: for every `real ≤ 0x7fffffff`, every prior flag and every `time_t` of 4 bytes or
more, `TestTimeSync real` leaves the flag inactive, does not end with the range error, and
its candidate `tOsTime` equals `real`. -/
theorem C3_at_or_below_threshold (p : Platform) (ok : Bool) (st : State) (real : Nat)
    (htb : 4 ≤ p.timeBytes) (hr : real ≤ Y2038_TIME_OFFSET) :
    (TestTimeSync p ok st real).state.g_nY2038OffsetActive = 0
      ∧ (TestTimeSync p ok st real).outcome ≠ Outcome.rangeError
      ∧ (TestTimeSync p ok st real).tOsTime = real := by
  rw [TestTimeSync_low p ok st real htb hr]
  exact ⟨syncClock_flag _ _ _, syncClock_ne_rangeError _ _ _, syncClock_tOsTime _ _ _⟩

/-- C3 at a concrete input: LP64 with an 8-byte `time_t`, flag active, `real = 0x7fffffff`. -/
theorem C3_at_or_below_threshold_witness :
    (TestTimeSync ⟨64, 8⟩ true ⟨1, 5⟩ 2147483647).state.g_nY2038OffsetActive = 0
      ∧ (TestTimeSync ⟨64, 8⟩ true ⟨1, 5⟩ 2147483647).outcome ≠ Outcome.rangeError
      ∧ (TestTimeSync ⟨64, 8⟩ true ⟨1, 5⟩ 2147483647).tOsTime = (2147483647 : Nat) :=
  C3_at_or_below_threshold ⟨64, 8⟩ true ⟨1, 5⟩ 2147483647 (by decide) (by decide)

/-- C4: on a platform with a 4-byte `time_t`, for every `real` above `0x7fffffff` and at most
twice that, and every prior flag, `TestTimeSync real` leaves the flag active, its candidate
is `real - 0x7fffffff`, the candidate lies in `[0, 0x7fffffff]` and the call does not end
with the range error; `real = 0x7fffffff + 100` gives the candidate 100. -/
theorem C4_above_threshold (p : Platform) (ok : Bool) (st : State) (real : Nat)
    (htb : p.timeBytes = 4) (hul : 32 ≤ p.ulBits)
    (h1 : Y2038_TIME_OFFSET < real) (h2 : real ≤ 2 * Y2038_TIME_OFFSET) :
    (TestTimeSync p ok st real).state.g_nY2038OffsetActive ≠ 0
      ∧ (TestTimeSync p ok st real).tOsTime = (real : Int) - Y2038_TIME_OFFSET
      ∧ 0 ≤ (TestTimeSync p ok st real).tOsTime
      ∧ (TestTimeSync p ok st real).tOsTime ≤ Y2038_TIME_OFFSET
      ∧ (TestTimeSync p ok st real).outcome ≠ Outcome.rangeError
      ∧ (real = Y2038_TIME_OFFSET + 100 → (TestTimeSync p ok st real).tOsTime = 100) := by
  have h1i : (Y2038_TIME_OFFSET : Int) < real := by exact_mod_cast h1
  have h2i : (real : Int) ≤ 2 * (Y2038_TIME_OFFSET : Int) := by exact_mod_cast h2
  rw [TestTimeSync_high p ok st real htb hul h1 h2]
  rw [syncClock_flag, syncClock_tOsTime]
  refine ⟨?_, rfl, by omega, by omega, syncClock_ne_rangeError _ _ _, ?_⟩
  · simp only
    split_ifs with hz
    · decide
    · exact hz
  · intro h
    subst h
    push_cast
    ring

/-- C4 at a concrete input: ILP32, flag inactive, `real = 0x7fffffff + 100`. -/
theorem C4_above_threshold_witness :
    (TestTimeSync ⟨32, 4⟩ true ⟨0, 0⟩ 2147483747).state.g_nY2038OffsetActive ≠ 0
      ∧ (TestTimeSync ⟨32, 4⟩ true ⟨0, 0⟩ 2147483747).tOsTime
          = ((2147483747 : Nat) : Int) - Y2038_TIME_OFFSET
      ∧ 0 ≤ (TestTimeSync ⟨32, 4⟩ true ⟨0, 0⟩ 2147483747).tOsTime
      ∧ (TestTimeSync ⟨32, 4⟩ true ⟨0, 0⟩ 2147483747).tOsTime ≤ Y2038_TIME_OFFSET
      ∧ (TestTimeSync ⟨32, 4⟩ true ⟨0, 0⟩ 2147483747).outcome ≠ Outcome.rangeError
      ∧ (2147483747 = Y2038_TIME_OFFSET + 100
          → (TestTimeSync ⟨32, 4⟩ true ⟨0, 0⟩ 2147483747).tOsTime = 100) :=
  C4_above_threshold ⟨32, 4⟩ true ⟨0, 0⟩ 2147483747 rfl (by decide) (by decide) (by decide)

/-- Beyond twice the threshold and below `2 ^ 32 + 0x7fffffff`, on a platform with a 4-byte
`time_t`, the cast of `real - 0x7fffffff` is negative and the call ends with the range
error, the clock untouched. -/
theorem TestTimeSync_beyond (p : Platform) (ok : Bool) (st : State) (real : Nat)
    (htb : p.timeBytes = 4) (hul : real < 2 ^ p.ulBits)
    (h1 : 2 * Y2038_TIME_OFFSET < real) (h2 : real < 2 ^ 32 + Y2038_TIME_OFFSET) :
    (TestTimeSync p ok st real).outcome = Outcome.rangeError
      ∧ (TestTimeSync p ok st real).state.clock = st.clock
      ∧ (TestTimeSync p ok st real).tOsTime = (real : Int) - Y2038_TIME_OFFSET - 2 ^ 32 := by
  have hT : Y2038_TIME_OFFSET = 2147483647 := rfl
  have hc : real > Y2038_TIME_OFFSET ∧ p.timeBytes = 4 := ⟨by omega, htb⟩
  have huli : (real : Int) < (2 : Int) ^ p.ulBits := by exact_mod_cast hul
  have hu : (toUnsigned p.ulBits ((real : Int) - Y2038_TIME_OFFSET) : Int)
      = (real : Int) - Y2038_TIME_OFFSET :=
    toUnsigned_of_lt _ _ (by rw [hT]; omega) (by rw [hT]; omega)
  have ht : toSigned (8 * p.timeBytes)
      (toUnsigned p.ulBits ((real : Int) - Y2038_TIME_OFFSET))
      = (real : Int) - Y2038_TIME_OFFSET - 2 ^ 32 := by
    rw [hu, htb, hT]
    unfold toSigned
    norm_num
    omega
  have hbad : (real : Int) - Y2038_TIME_OFFSET - 2 ^ 32 > Y2038_TIME_OFFSET
      ∨ (real : Int) - Y2038_TIME_OFFSET - 2 ^ 32 < 0 := by
    right
    rw [hT]
    norm_num
    omega
  simp only [TestTimeSync, if_pos hc, ht, if_pos hbad, true_and]
  split_ifs <;> simp

/-- C5: on a platform with a 64-bit `unsigned long` and a 4-byte `time_t`, the input
`2 ^ 32 + 0x7fffffff + 5` is beyond twice the threshold, yet the cast of
`real - 0x7fffffff` to `time_t` is 5, the range check passes and the clock is set to 5. -/
theorem C5_wrapped_candidate_accepted :
    2 * Y2038_TIME_OFFSET < 6442450948
      ∧ TestTimeSync ⟨64, 4⟩ true ⟨0, 1000⟩ 6442450948
          = { state := ⟨1, 5⟩, tOsTime := 5, outcome := Outcome.clockSet 5 0 true } := by
  decide

/-- C6: for every clock reading `N` with `0 ≤ N ≤ 0x7fffffff`, `GetRealTimeUL` returns
`N + 0x7fffffff` when the flag is active and `N` when it is inactive, and leaves the flag
and the clock as they are. -/
theorem C6_GetRealTimeUL (p : Platform) (flag : Int) (N : Nat)
    (hul : 32 ≤ p.ulBits) (hN : N ≤ Y2038_TIME_OFFSET) :
    GetRealTimeUL p { g_nY2038OffsetActive := flag, clock := N }
      = (if flag ≠ 0 then N + Y2038_TIME_OFFSET else N,
          { g_nY2038OffsetActive := flag, clock := N }) := by
  have h32 := two_pow_32_le p.ulBits hul
  have hT : (Y2038_TIME_OFFSET : Int) = 2147483647 := by simp [Y2038_TIME_OFFSET]
  have hNi : (N : Int) ≤ (Y2038_TIME_OFFSET : Int) := by exact_mod_cast hN
  have h1 : toUnsigned p.ulBits (N : Int) = N := by
    have := toUnsigned_of_lt p.ulBits (N : Int) (by positivity) (by omega)
    exact_mod_cast this
  have h2 : toUnsigned p.ulBits ((N : Int) + Y2038_TIME_OFFSET) = N + Y2038_TIME_OFFSET := by
    have := toUnsigned_of_lt p.ulBits ((N : Int) + Y2038_TIME_OFFSET) (by positivity)
      (by omega)
    exact_mod_cast this
  simp only [GetRealTimeUL, h1, h2]
  split_ifs <;> rfl

/-- C6 at a concrete input: ILP32, flag active, clock reading 100. -/
theorem C6_GetRealTimeUL_witness :
    GetRealTimeUL ⟨32, 4⟩ { g_nY2038OffsetActive := 1, clock := (100 : Nat) }
      = (if (1 : Int) ≠ 0 then 100 + Y2038_TIME_OFFSET else 100,
          { g_nY2038OffsetActive := 1, clock := (100 : Nat) }) :=
  C6_GetRealTimeUL ⟨32, 4⟩ 1 100 (by decide) (by decide)

/-- C9: for every `real` and prior state, when the first `TestTimeSync real` ends with the
clock within 2 seconds of its candidate, a second `TestTimeSync real` does not call
`clock_settime` and leaves the flag and the clock as the first call left them. -/
theorem C9_sync_twice (p : Platform) (ok1 ok2 : Bool) (st : State) (real : Nat)
    (h1 : (TestTimeSync p ok1 st real).state.clock - (TestTimeSync p ok1 st real).tOsTime ≤ 2)
    (h2 : -2 ≤ (TestTimeSync p ok1 st real).state.clock
      - (TestTimeSync p ok1 st real).tOsTime) :
    (TestTimeSync p ok2 (TestTimeSync p ok1 st real).state real).outcome.isClockSet = false
      ∧ (TestTimeSync p ok2 (TestTimeSync p ok1 st real).state real).state
          = (TestTimeSync p ok1 st real).state := by
  by_cases hc : real > Y2038_TIME_OFFSET ∧ p.timeBytes = 4
  · -- the offset branch: the flag is active after the first call
    have hflag : (TestTimeSync p ok1 st real).state.g_nY2038OffsetActive ≠ 0 := by
      simp only [TestTimeSync, if_pos hc]
      split_ifs <;> simp_all [syncClock_flag]
    have htos : (TestTimeSync p ok1 st real).tOsTime
        = toSigned (8 * p.timeBytes)
            (toUnsigned p.ulBits ((real : Int) - Y2038_TIME_OFFSET)) := by
      simp only [TestTimeSync, if_pos hc]
      split_ifs <;> simp [syncClock_tOsTime]
    rw [htos] at h1 h2
    generalize TestTimeSync p ok1 st real = r1 at hflag h1 h2 ⊢
    simp only [TestTimeSync, if_pos hc, if_neg hflag]
    split_ifs
    · exact ⟨rfl, rfl⟩
    · rw [syncClock_of_near ok2 r1.state _ h1 h2]
      exact ⟨rfl, rfl⟩
  · -- the plain branch: below the threshold the flag is 0 after the first call
    have hflag : ¬ ((TestTimeSync p ok1 st real).state.g_nY2038OffsetActive ≠ 0
        ∧ real ≤ Y2038_TIME_OFFSET) := by
      simp only [TestTimeSync, if_neg hc, syncClock_flag]
      split_ifs with h <;> simp_all
    have htos : (TestTimeSync p ok1 st real).tOsTime
        = toSigned (8 * p.timeBytes) (real : Int) := by
      simp only [TestTimeSync, if_neg hc, syncClock_tOsTime]
    rw [htos] at h1 h2
    generalize TestTimeSync p ok1 st real = r1 at hflag h1 h2 ⊢
    simp only [TestTimeSync, if_neg hc, if_neg hflag]
    rw [syncClock_of_near ok2 r1.state _ h1 h2]
    exact ⟨rfl, rfl⟩

/-- C9 at a concrete input: ILP32, flag inactive, clock 0, `real = 0x7fffffff + 100`; the
first call sets the clock to 100. -/
theorem C9_sync_twice_witness :
    (TestTimeSync ⟨32, 4⟩ true (TestTimeSync ⟨32, 4⟩ true ⟨0, 0⟩ 2147483747).state
        2147483747).outcome.isClockSet = false
      ∧ (TestTimeSync ⟨32, 4⟩ true (TestTimeSync ⟨32, 4⟩ true ⟨0, 0⟩ 2147483747).state
          2147483747).state
          = (TestTimeSync ⟨32, 4⟩ true ⟨0, 0⟩ 2147483747).state :=
  C9_sync_twice ⟨32, 4⟩ true true ⟨0, 0⟩ 2147483747 (by decide) (by decide)

/-- C10, as stated, fails: on ILP32, with the flag inactive and `real = 0xffffffff`, the call
ends with the range error and the flag has changed from 0 to 1. -/
theorem C10_rangeError_changes_flag :
    (TestTimeSync ⟨32, 4⟩ true ⟨0, 0⟩ 4294967295).outcome = Outcome.rangeError
      ∧ (TestTimeSync ⟨32, 4⟩ true ⟨0, 0⟩ 4294967295).state ≠ ⟨0, 0⟩ := by
  decide

/-- C10, amended: whenever `TestTimeSync real` ends with the range error, `clock_settime` was
not called and the clock is unchanged; the flag is unchanged when it was active and is 1
when it was inactive. -/
theorem C10_rangeError_state (p : Platform) (ok : Bool) (st : State) (real : Nat)
    (h : (TestTimeSync p ok st real).outcome = Outcome.rangeError) :
    (TestTimeSync p ok st real).outcome.isClockSet = false
      ∧ (TestTimeSync p ok st real).state.clock = st.clock
      ∧ (TestTimeSync p ok st real).state.g_nY2038OffsetActive
          = if st.g_nY2038OffsetActive = 0 then 1 else st.g_nY2038OffsetActive := by
  refine ⟨by rw [h]; rfl, ?_⟩
  by_cases hc : real > Y2038_TIME_OFFSET ∧ p.timeBytes = 4
  · simp only [TestTimeSync, if_pos hc] at h ⊢
    split_ifs at h ⊢ <;>
      first
      | exact ⟨rfl, rfl⟩
      | exact absurd h (syncClock_ne_rangeError _ _ _)
  · simp only [TestTimeSync, if_neg hc] at h
    exact absurd h (syncClock_ne_rangeError _ _ _)

/-- C10, amended, at a concrete input: ILP32, flag inactive, `real = 0xffffffff`. -/
theorem C10_rangeError_state_witness :
    (TestTimeSync ⟨32, 4⟩ true ⟨0, 0⟩ 4294967295).outcome.isClockSet = false
      ∧ (TestTimeSync ⟨32, 4⟩ true ⟨0, 0⟩ 4294967295).state.clock = (⟨0, 0⟩ : State).clock
      ∧ (TestTimeSync ⟨32, 4⟩ true ⟨0, 0⟩ 4294967295).state.g_nY2038OffsetActive
          = if (⟨0, 0⟩ : State).g_nY2038OffsetActive = 0 then 1
            else (⟨0, 0⟩ : State).g_nY2038OffsetActive :=
  C10_rangeError_state ⟨32, 4⟩ true ⟨0, 0⟩ 4294967295 (by decide)

/-! ## `UnixTimeToTm`: the arithmetic stays in range below `intYearLimit` -/

theorem chkInt_of_range (x : Int) (h0 : -2147483648 ≤ x) (h1 : x ≤ 2147483647) :
    chkInt x = some x := by
  unfold chkInt
  exact if_pos ⟨h0, h1⟩

theorem toInt_natCast (n : Nat) (h : n ≤ 2147483647) : toInt (n : Int) = n :=
  toInt_of_range _ (by omega) (by omega)

/-- For the years the loop visits, the `int` expression of the leap count is defined and
is the leap count of the closed form. -/
theorem leap_years_eq (y : Nat) (h1 : 1970 ≤ y) (h2 : y ≤ 5885486) :
    leap_years (y : Int)
      = some (((y - 1969) / 4 - (y - 1901) / 100 + (y - 1601) / 400 : Nat) : Int) := by
  have e1 : chkInt ((y : Int) - 1) = some ((y : Int) - 1) :=
    chkInt_of_range _ (by omega) (by omega)
  have e2 : chkInt ((y : Int) - 1 - 1968) = some ((y : Int) - 1 - 1968) :=
    chkInt_of_range _ (by omega) (by omega)
  have e3 : chkInt ((y : Int) - 1 - 1900) = some ((y : Int) - 1 - 1900) :=
    chkInt_of_range _ (by omega) (by omega)
  have e4 : chkInt ((y : Int) - 1 - 1600) = some ((y : Int) - 1 - 1600) :=
    chkInt_of_range _ (by omega) (by omega)
  have d2 : ((y : Int) - 1 - 1968).tdiv 4 = ((y : Int) - 1 - 1968) / 4 :=
    Int.tdiv_eq_ediv (by omega) (by norm_num)
  have d3 : ((y : Int) - 1 - 1900).tdiv 100 = ((y : Int) - 1 - 1900) / 100 :=
    Int.tdiv_eq_ediv (by omega) (by norm_num)
  have d4 : ((y : Int) - 1 - 1600).tdiv 400 = ((y : Int) - 1 - 1600) / 400 :=
    Int.tdiv_eq_ediv (by omega) (by norm_num)
  have e5 : chkInt (((y : Int) - 1 - 1968) / 4 - ((y : Int) - 1 - 1900) / 100)
      = some (((y : Int) - 1 - 1968) / 4 - ((y : Int) - 1 - 1900) / 100) :=
    chkInt_of_range _ (by omega) (by omega)
  have e6 : chkInt (((y : Int) - 1 - 1968) / 4 - ((y : Int) - 1 - 1900) / 100
        + ((y : Int) - 1 - 1600) / 400)
      = some (((y : Int) - 1 - 1968) / 4 - ((y : Int) - 1 - 1900) / 100
        + ((y : Int) - 1 - 1600) / 400) :=
    chkInt_of_range _ (by omega) (by omega)
  simp only [leap_years, Option.bind_eq_bind, Option.some_bind, e1, e2, e3, e4, d2, d3, d4,
    e5, e6]
  congr 1
  omega

/-- For the years the loop visits, `days_in_years` is defined and is the closed form. -/
theorem days_in_years_eq (w y : Nat) (hw : 32 ≤ w) (h1 : 1970 ≤ y) (h2 : y ≤ 5885486) :
    days_in_years w (y : Int)
        (toUnsigned w (((y - 1969) / 4 - (y - 1901) / 100 + (y - 1601) / 400 : Nat) : Int))
      = some (cumulativeDays y) := by
  have h32 := two_pow_32_le w hw
  have e1 : chkInt ((y : Int) - 1970) = some ((y : Int) - 1970) :=
    chkInt_of_range _ (by omega) (by omega)
  have e2 : chkInt (((y : Int) - 1970) * 365) = some (((y : Int) - 1970) * 365) :=
    chkInt_of_range _ (by omega) (by omega)
  have e3 : toUnsigned w (((y - 1969) / 4 - (y - 1901) / 100 + (y - 1601) / 400 : Nat) : Int)
      = (y - 1969) / 4 - (y - 1901) / 100 + (y - 1601) / 400 := by
    have := toUnsigned_of_lt w
      (((y - 1969) / 4 - (y - 1901) / 100 + (y - 1601) / 400 : Nat) : Int)
      (by positivity) (by omega)
    exact_mod_cast this
  simp only [days_in_years, Option.bind_eq_bind, Option.some_bind, e1, e2, e3]
  congr 1
  have e4 : ((y : Int) - 1970) * 365
        + (((y - 1969) / 4 - (y - 1901) / 100 + (y - 1601) / 400 : Nat) : Int)
      = ((cumulativeDays y : Nat) : Int) := by
    unfold cumulativeDays
    omega
  rw [e4]
  have hc := cumulativeDays_upper y h1
  have := toUnsigned_of_lt w ((cumulativeDays y : Nat) : Int) (Int.ofNat_nonneg _) (by omega)
  exact_mod_cast this

/-- The loop started at a year `y` whose successor lies beyond `days` stops at the year
that holds `days`; `fuel` beyond `y - 1970` rounds is enough. -/
theorem adjustYear_spec (w days : Nat) (hw : 32 ≤ w) :
    ∀ fuel y : Nat, 1970 ≤ y → y ≤ 5885486 → y - 1970 < fuel →
      days < cumulativeDays (y + 1) →
      ∃ Y, 1970 ≤ Y ∧ Y ≤ y ∧ cumulativeDays Y ≤ days ∧ days < cumulativeDays (Y + 1)
        ∧ adjustYear w days fuel (y : Int) (cumulativeDays y)
            = some ((Y : Int), cumulativeDays Y) := by
  intro fuel
  induction fuel with
  | zero => intro y _ _ h; omega
  | succ n ih =>
    intro y h1 h2 h3 h4
    by_cases hgt : cumulativeDays y > days
    · have hy : 1970 < y := by
        by_contra hcon
        have e : y = 1970 := by omega
        rw [e, cumulativeDays_1970] at hgt
        omega
      have hy1 : y - 1 + 1 = y := by omega
      obtain ⟨Y, hY1, hY2, hY3, hY4, hY5⟩ :=
        ih (y - 1) (by omega) (by omega) (by omega) (by rw [hy1]; exact hgt)
      refine ⟨Y, hY1, by omega, hY3, hY4, ?_⟩
      have e1 : chkInt ((y : Int) - 1) = some (((y - 1 : Nat) : Int)) := by
        rw [chkInt_of_range _ (by omega) (by omega)]
        congr 1
        omega
      rw [adjustYear, if_pos hgt]
      simp only [Option.bind_eq_bind, Option.some_bind, e1,
        leap_years_eq (y - 1) (by omega) (by omega),
        days_in_years_eq w (y - 1) hw (by omega) (by omega)]
      exact hY5
    · refine ⟨y, h1, le_refl y, by omega, h4, ?_⟩
      rw [adjustYear, if_neg hgt]

/-- Below `intYearLimit` no conversion wraps and no `int` operation overflows: the call
returns the fields of `tmOfYear` for the year `Y` that holds the day count. -/
theorem UnixTimeToTm_eq (w s : Nat) (hw : 32 ≤ w) (hs : s < intYearLimit) :
    ∃ Y, 1970 ≤ Y ∧ cumulativeDays Y ≤ s / 86400 ∧ s / 86400 < cumulativeDays (Y + 1)
      ∧ UnixTimeToTm w s = some (tmOfYear s Y) := by
  have h32 := two_pow_32_le w hw
  have hs1 : s < 185542592112000 := hs
  have hd : s / 86400 < 2147483705 := by omega
  have hg : 1970 + s / 86400 / 365 ≤ 5885486 := by omega
  -- the first guess
  have eg : toUnsigned w (1970 + ((s / 86400 / 365 : Nat) : Int)) = 1970 + s / 86400 / 365 := by
    have := toUnsigned_of_lt w (1970 + ((s / 86400 / 365 : Nat) : Int)) (by omega) (by omega)
    apply Int.ofNat_inj.mp
    rw [this]
    push_cast
    rfl
  have ey : toInt ((1970 + s / 86400 / 365 : Nat) : Int) = ((1970 + s / 86400 / 365 : Nat) : Int) :=
    toInt_natCast _ (by omega)
  have hlow := cumulativeDays_lower (1970 + s / 86400 / 365 + 1)
  obtain ⟨Y, hY1, hY2, hY3, hY4, hY5⟩ :=
    adjustYear_spec w (s / 86400) hw (2 ^ 32) (1970 + s / 86400 / 365) (by omega) hg
      (by norm_num; omega) (by omega)
  refine ⟨Y, hY1, hY3, hY4, ?_⟩
  have hsucc := cumulativeDays_succ Y hY1
  have hlen := yearLength_pos Y
  have eyr : chkInt ((Y : Int) - 1900) = some ((Y : Int) - 1900) :=
    chkInt_of_range _ (by omega) (by omega)
  have eyd : toUnsigned w (((s / 86400 : Nat) : Int) - ((cumulativeDays Y : Nat) : Int))
      = s / 86400 - cumulativeDays Y := by
    have := toUnsigned_of_lt w
      (((s / 86400 : Nat) : Int) - ((cumulativeDays Y : Nat) : Int)) (by omega) (by omega)
    apply Int.ofNat_inj.mp
    rw [this]
    omega
  have hyd : s / 86400 - cumulativeDays Y < (if isLeapYear Y then 366 else 365) := by
    have : yearLength Y = (if isLeapYear Y then 366 else 365) := rfl
    omega
  obtain ⟨hm1, hm2, -⟩ := monthWalk_table (isLeapYear Y) _ hyd
  have hm3 := monthLength_le (isLeapYear Y)
    (monthWalk (days_in_month (isLeapYear Y)) 0 (s / 86400 - cumulativeDays Y)).1
  have emd : toUnsigned w
      (((monthWalk (days_in_month (isLeapYear Y)) 0 (s / 86400 - cumulativeDays Y)).2 : Int) + 1)
      = (monthWalk (days_in_month (isLeapYear Y)) 0 (s / 86400 - cumulativeDays Y)).2 + 1 := by
    have := toUnsigned_of_lt w
      (((monthWalk (days_in_month (isLeapYear Y)) 0 (s / 86400 - cumulativeDays Y)).2 : Int) + 1)
      (by omega) (by omega)
    apply Int.ofNat_inj.mp
    rw [this]
    push_cast
    rfl
  have ewd : toUnsigned w (((s / 86400 : Nat) : Int) + 4) = s / 86400 + 4 := by
    have := toUnsigned_of_lt w (((s / 86400 : Nat) : Int) + 4) (by omega) (by omega)
    apply Int.ofNat_inj.mp
    rw [this]
    push_cast
    rfl
  simp only [UnixTimeToTm, Option.bind_eq_bind, Option.some_bind, eg, ey,
    leap_years_eq _ (show 1970 ≤ 1970 + s / 86400 / 365 by omega) hg,
    days_in_years_eq w _ hw (show 1970 ≤ 1970 + s / 86400 / 365 by omega) hg,
    hY5, eyr, eyd, is_leap_natCast, emd, ewd]
  simp only [tmOfYear]
  rw [toInt_natCast (s % 86400 % 60) (by omega),
    toInt_natCast (s % 86400 % 3600 / 60) (by omega),
    toInt_natCast (s % 86400 / 3600) (by omega),
    toInt_natCast
      ((monthWalk (days_in_month (isLeapYear Y)) 0 (s / 86400 - cumulativeDays Y)).2 + 1)
      (by omega),
    toInt_natCast
      (monthWalk (days_in_month (isLeapYear Y)) 0 (s / 86400 - cumulativeDays Y)).1
      (by omega),
    toInt_natCast ((s / 86400 + 4) % 7) (by omega),
    toInt_natCast (s / 86400 - cumulativeDays Y) (by omega)]

/-! ## `UnixTimeToTm`: properties -/

/-- Rebuilding the seconds from the fields of `tmOfYear` gives the timestamp back, when `Y`
is the year that holds its day count. -/
theorem secondsFromTm_tmOfYear (s Y : Nat) (hY : 1970 ≤ Y)
    (h1 : cumulativeDays Y ≤ s / 86400) (h2 : s / 86400 < cumulativeDays (Y + 1)) :
    secondsFromTm (tmOfYear s Y) = s := by
  have hsucc := cumulativeDays_succ Y hY
  have hyd : s / 86400 - cumulativeDays Y < (if isLeapYear Y then 366 else 365) := by
    have : yearLength Y = (if isLeapYear Y then 366 else 365) := rfl
    omega
  obtain ⟨-, -, hm⟩ := monthWalk_table (isLeapYear Y) _ hyd
  have ey : ((Y : Int) - 1900 + 1900).toNat = Y := by
    rw [show (Y : Int) - 1900 + 1900 = (Y : Int) by ring]
    exact Int.toNat_natCast Y
  simp only [secondsFromTm, tmOfYear, ey, Int.toNat_natCast, daysBeforeYear_eq Y hY]
  generalize (monthWalk (days_in_month (isLeapYear Y)) 0 (s / 86400 - cumulativeDays Y)).2
    = rest at hm ⊢
  generalize daysBeforeMonth (isLeapYear Y)
    (monthWalk (days_in_month (isLeapYear Y)) 0 (s / 86400 - cumulativeDays Y)).1 = dbm at hm ⊢
  generalize cumulativeDays Y = c at h1 hm ⊢
  push_cast
  omega

/-- C1, as stated, fails on a platform with a 64-bit `unsigned long`: the timestamp
`2 ^ 32 * 365 * 86400` is representable, its year guess `1970 + 2 ^ 32` converts to the
`int` 1970, the month walk leaves the table at index 12, and the seconds rebuilt from the
fields are 0. -/
theorem C1_round_trip_fails_64 :
    135446088646656000 < 2 ^ 64
      ∧ UnixTimeToTm 64 135446088646656000
          = some { tm_sec := 0, tm_min := 0, tm_hour := 0, tm_mday := -364, tm_mon := 12,
                   tm_year := 70, tm_wday := 1, tm_yday := 0, tm_isdst := -1 }
      ∧ secondsFromTm { tm_sec := 0, tm_min := 0, tm_hour := 0, tm_mday := -364, tm_mon := 12,
                        tm_year := 70, tm_wday := 1, tm_yday := 0, tm_isdst := -1 }
          ≠ 135446088646656000 := by
  decide

/-- C1, amended: for every timestamp below `intYearLimit = 5883517 * 365 * 86400`, which
covers every value of a 32-bit `unsigned long`, `UnixTimeToTm` returns fields from which
the calendar arithmetic rebuilds exactly the timestamp. -/
theorem C1_round_trip (w s : Nat) (hw : 32 ≤ w) (hs : s < intYearLimit) :
    ∃ t, UnixTimeToTm w s = some t ∧ secondsFromTm t = s := by
  obtain ⟨Y, hY, h1, h2, h3⟩ := UnixTimeToTm_eq w s hw hs
  exact ⟨tmOfYear s Y, h3, secondsFromTm_tmOfYear s Y hY h1 h2⟩

/-- C1, amended, at a concrete input: the largest value of a 32-bit `unsigned long`. -/
theorem C1_round_trip_witness :
    ∃ t, UnixTimeToTm 32 4294967295 = some t ∧ secondsFromTm t = (4294967295 : Nat) :=
  C1_round_trip 32 4294967295 (by decide) (by decide)

/-- C7: `UnixTimeToTm 0` gives year 1970 (`tm_year = 70`), month index 0, day 1, 00:00:00,
weekday 4, day of year 0 and `tm_isdst = -1`. -/
theorem C7_epoch (w : Nat) (hw : 32 ≤ w) :
    UnixTimeToTm w 0
      = some { tm_sec := 0, tm_min := 0, tm_hour := 0, tm_mday := 1, tm_mon := 0,
               tm_year := 70, tm_wday := 4, tm_yday := 0, tm_isdst := -1 } := by
  obtain ⟨Y, hY, h1, h2, h3⟩ := UnixTimeToTm_eq w 0 hw (by decide)
  have e : Y = 1970 :=
    cumulativeDays_unique Y 1970 (0 / 86400) hY (le_refl _) h1 h2 (by decide) (by decide)
  rw [h3, e]
  decide

/-- C7 at a concrete width: a 32-bit `unsigned long`. -/
theorem C7_epoch_witness :
    UnixTimeToTm 32 0
      = some { tm_sec := 0, tm_min := 0, tm_hour := 0, tm_mday := 1, tm_mon := 0,
               tm_year := 70, tm_wday := 4, tm_yday := 0, tm_isdst := -1 } :=
  C7_epoch 32 (by decide)

theorem daysBeforeMonth_two (leap : Bool) :
    daysBeforeMonth leap 2 = if leap then 60 else 59 := by
  cases leap <;> rfl

/-- March 1 of year `y` in days: the closed form plus the 59 or 60 days of January and
February. -/
theorem marchFirst_eq (y : Nat) (h : 1970 ≤ y) :
    marchFirst y = (cumulativeDays y + if isLeapYear y then 60 else 59) * 86400 := by
  unfold marchFirst
  rw [daysBeforeYear_eq y h, daysBeforeMonth_two]

/-- C8, as stated, fails on a platform with a 64-bit `unsigned long`: March 1 of the leap
year 4292117656 is the representable timestamp 135446088686745600, whose year guess
`1970 + 4294967297` converts to the `int` 1971; the call reports year 1971, month index 12
and day of year 99. -/
theorem C8_march_first_fails_64 :
    1970 ≤ 4292117656
      ∧ marchFirst 4292117656 < 2 ^ 64
      ∧ isLeapYear 4292117656 = true
      ∧ UnixTimeToTm 64 (marchFirst 4292117656)
          = some { tm_sec := 0, tm_min := 0, tm_hour := 0, tm_mday := -265, tm_mon := 12,
                   tm_year := 71, tm_wday := 3, tm_yday := 99, tm_isdst := -1 }
      ∧ (71 : Int) ≠ ((4292117656 : Nat) : Int) - 1900 := by
  rw [marchFirst_eq 4292117656 (by decide)]
  decide

/-- C8, amended: for every year `Y ≥ 1970` whose March 1 is a timestamp below
`intYearLimit` (every such year up to 2105 on a 32-bit `unsigned long`), the timestamp of
`Y-03-01T00:00:00` converts to year `Y`, month index 2, day of month 1, and day of year 60
when `Y` is a Gregorian leap year and 59 otherwise. -/
theorem C8_march_first (w Y : Nat) (hw : 32 ≤ w) (hY : 1970 ≤ Y)
    (hs : marchFirst Y < intYearLimit) :
    ∃ t, UnixTimeToTm w (marchFirst Y) = some t
      ∧ t.tm_year = (Y : Int) - 1900 ∧ t.tm_mon = 2 ∧ t.tm_mday = 1
      ∧ t.tm_yday = if isLeapYear Y then 60 else 59 := by
  obtain ⟨Z, hZ, h1, h2, h3⟩ := UnixTimeToTm_eq w (marchFirst Y) hw hs
  have hm := marchFirst_eq Y hY
  have hsucc := cumulativeDays_succ Y hY
  have hlen := yearLength_pos Y
  have hdays : marchFirst Y / 86400
      = cumulativeDays Y + if isLeapYear Y then 60 else 59 := by
    rw [hm]
    exact Nat.mul_div_cancel _ (by decide)
  have hle : (if isLeapYear Y then 60 else 59) ≤ 60 := by split_ifs <;> omega
  have e : Z = Y :=
    cumulativeDays_unique Z Y (marchFirst Y / 86400) hZ hY h1 h2 (by omega) (by omega)
  subst e
  refine ⟨tmOfYear (marchFirst Z) Z, h3, rfl, ?_⟩
  have hyd : marchFirst Z / 86400 - cumulativeDays Z = if isLeapYear Z then 60 else 59 := by
    omega
  simp only [tmOfYear, hyd]
  cases isLeapYear Z <;> decide

/-- C8, amended, at concrete inputs: the year 2000 on a 32-bit `unsigned long`. -/
theorem C8_march_first_witness :
    ∃ t, UnixTimeToTm 32 (marchFirst 2000) = some t
      ∧ t.tm_year = ((2000 : Nat) : Int) - 1900 ∧ t.tm_mon = 2 ∧ t.tm_mday = 1
      ∧ t.tm_yday = if isLeapYear 2000 then 60 else 59 :=
  C8_march_first 32 2000 (by decide) (by decide) (by decide)

/-- C11: `UnixTimeToTm 0x7fffffff` gives 2038-01-19 03:14:07 (`tm_year = 138`, `tm_mon = 0`,
`tm_mday = 19`, `tm_hour = 3`, `tm_min = 14`, `tm_sec = 7`), weekday 2 and day of year 18. -/
theorem C11_threshold_instant (w : Nat) (hw : 32 ≤ w) :
    UnixTimeToTm w 0x7fffffff
      = some { tm_sec := 7, tm_min := 14, tm_hour := 3, tm_mday := 19, tm_mon := 0,
               tm_year := 138, tm_wday := 2, tm_yday := 18, tm_isdst := -1 } := by
  obtain ⟨Y, hY, h1, h2, h3⟩ := UnixTimeToTm_eq w 0x7fffffff hw (by decide)
  have e : Y = 2038 :=
    cumulativeDays_unique Y 2038 (0x7fffffff / 86400) hY (by decide) h1 h2 (by decide)
      (by decide)
  rw [h3, e]
  decide

/-- C11 at a concrete width: a 32-bit `unsigned long`. -/
theorem C11_threshold_instant_witness :
    UnixTimeToTm 32 0x7fffffff
      = some { tm_sec := 7, tm_min := 14, tm_hour := 3, tm_mday := 19, tm_mon := 0,
               tm_year := 138, tm_wday := 2, tm_yday := 18, tm_isdst := -1 } :=
  C11_threshold_instant 32 (by decide)

/-! ## The offset controller: the clock-set call -/

/-- What `syncClock` passes to `clock_settime` when it calls it. -/
theorem syncClock_set_args (ok : Bool) (st : State) (t a b : Int) (c : Bool)
    (h : (syncClock ok st t).outcome = Outcome.clockSet a b c) : a = t ∧ b = 0 := by
  simp only [syncClock] at h
  split_ifs at h <;> simp_all

/-- The gate of `syncClock`: the call reaches `clock_settime` exactly when the clock and the
candidate are more than 2 seconds apart, and leaves the clock alone otherwise. -/
theorem syncClock_gate (ok : Bool) (st : State) (t : Int) :
    ((syncClock ok st t).outcome.isClockSet = true ↔ (st.clock - t > 2 ∨ st.clock - t < -2))
      ∧ ((syncClock ok st t).outcome.isClockSet = false
          → (syncClock ok st t).state.clock = st.clock) := by
  rw [← nDiffTime_gap]
  simp only [syncClock]
  by_cases hg : nDiffTime st.clock t > 2 ∨ nDiffTime st.clock t < -2
  · simp only [if_pos hg]
    cases ok <;> simp [Outcome.isClockSet, hg]
  · simp only [if_neg hg]
    simp [Outcome.isClockSet, hg]

/-- C12, as stated, fails: with an 8-byte `time_t` and the clock at 1700000000 the input
`0x7fffffff + 100` takes the plain branch, and `clock_settime` is called with `tv_sec = 2147483747`, above the
threshold. -/
theorem C12_unvalidated_on_wide_time :
    (TestTimeSync ⟨64, 8⟩ true ⟨0, 1700000000⟩ 2147483747).outcome
        = Outcome.clockSet 2147483747 0 true
      ∧ ¬ ((2147483747 : Int) ≤ Y2038_TIME_OFFSET) := by
  decide

/-- C12, amended: for every `real`, prior flag and `time_t` of 4 bytes or more, whenever
`TestTimeSync real` calls `clock_settime` the pair has `tv_sec` equal to the candidate and
`tv_nsec = 0`; the candidate lies in `[0, 0x7fffffff]` when `time_t` has 4 bytes or
`real ≤ 0x7fffffff`. -/
theorem C12_clock_set_args (p : Platform) (ok : Bool) (st : State) (real : Nat)
    (a b : Int) (c : Bool) (htb : 4 ≤ p.timeBytes)
    (h : (TestTimeSync p ok st real).outcome = Outcome.clockSet a b c) :
    a = (TestTimeSync p ok st real).tOsTime ∧ b = 0
      ∧ (p.timeBytes = 4 ∨ real ≤ Y2038_TIME_OFFSET → 0 ≤ a ∧ a ≤ Y2038_TIME_OFFSET) := by
  by_cases hc : real > Y2038_TIME_OFFSET ∧ p.timeBytes = 4
  · simp only [TestTimeSync, if_pos hc] at h ⊢
    by_cases hbad : toSigned (8 * p.timeBytes)
          (toUnsigned p.ulBits ((real : Int) - Y2038_TIME_OFFSET)) > Y2038_TIME_OFFSET
        ∨ toSigned (8 * p.timeBytes)
          (toUnsigned p.ulBits ((real : Int) - Y2038_TIME_OFFSET)) < 0
    · rw [if_pos hbad] at h
      exact absurd h (by simp)
    · rw [if_neg hbad] at h ⊢
      obtain ⟨ha, hb⟩ := syncClock_set_args _ _ _ _ _ _ h
      rw [syncClock_tOsTime]
      refine ⟨ha, hb, fun _ => ?_⟩
      rw [ha]
      omega
  · have hcases : real ≤ Y2038_TIME_OFFSET ∨ p.timeBytes ≠ 4 := by omega
    have htos : (TestTimeSync p ok st real).tOsTime
        = toSigned (8 * p.timeBytes) (real : Int) := by
      simp only [TestTimeSync, if_neg hc, syncClock_tOsTime]
    have hargs : a = toSigned (8 * p.timeBytes) (real : Int) ∧ b = 0 := by
      simp only [TestTimeSync, if_neg hc] at h
      exact syncClock_set_args _ _ _ _ _ _ h
    refine ⟨by rw [htos]; exact hargs.1, hargs.2, fun hor => ?_⟩
    have hr : real ≤ Y2038_TIME_OFFSET := by
      rcases hor with h4 | hr
      · rcases hcases with hr | hn
        · exact hr
        · exact absurd h4 hn
      · exact hr
    have e := TestTimeSync_low p ok st real htb hr
    rw [e, syncClock_tOsTime] at htos
    rw [hargs.1, ← htos]
    have : (real : Int) ≤ (Y2038_TIME_OFFSET : Int) := by exact_mod_cast hr
    omega

/-- C12, amended, at a concrete input: ILP32, flag inactive, clock 0,
`real = 0x7fffffff + 100`. -/
theorem C12_clock_set_args_witness :
    (100 : Int) = (TestTimeSync ⟨32, 4⟩ true ⟨0, 0⟩ 2147483747).tOsTime ∧ (0 : Int) = 0
      ∧ ((⟨32, 4⟩ : Platform).timeBytes = 4 ∨ 2147483747 ≤ Y2038_TIME_OFFSET
          → (0 : Int) ≤ 100 ∧ (100 : Int) ≤ Y2038_TIME_OFFSET) :=
  C12_clock_set_args ⟨32, 4⟩ true ⟨0, 0⟩ 2147483747 100 0 true (by decide) (by decide)

/-- C13: for every `real`, prior flag and clock reading `now`, `TestTimeSync real` calls
`clock_settime` if and only if it did not end with the range error and
`|now - candidate| > 2`; when it does not call it, the clock is unchanged. -/
theorem C13_tolerance_gate (p : Platform) (ok : Bool) (st : State) (real : Nat) :
    ((TestTimeSync p ok st real).outcome.isClockSet = true
        ↔ (TestTimeSync p ok st real).outcome ≠ Outcome.rangeError
          ∧ 2 < |st.clock - (TestTimeSync p ok st real).tOsTime|)
      ∧ ((TestTimeSync p ok st real).outcome.isClockSet = false
          → (TestTimeSync p ok st real).state.clock = st.clock) := by
  simp only [lt_abs]
  by_cases hc : real > Y2038_TIME_OFFSET ∧ p.timeBytes = 4
  · simp only [TestTimeSync, if_pos hc]
    by_cases hbad : toSigned (8 * p.timeBytes)
          (toUnsigned p.ulBits ((real : Int) - Y2038_TIME_OFFSET)) > Y2038_TIME_OFFSET
        ∨ toSigned (8 * p.timeBytes)
          (toUnsigned p.ulBits ((real : Int) - Y2038_TIME_OFFSET)) < 0
    · simp only [if_pos hbad]
      refine ⟨by simp [Outcome.isClockSet], fun _ => ?_⟩
      split_ifs <;> rfl
    · simp only [if_neg hbad]
      rw [syncClock_tOsTime]
      have hclock : (if st.g_nY2038OffsetActive = 0 then
            ({ st with g_nY2038OffsetActive := 1 } : State) else st).clock = st.clock := by
        split_ifs <;> rfl
      have hg := syncClock_gate ok
        (if st.g_nY2038OffsetActive = 0 then
          ({ st with g_nY2038OffsetActive := 1 } : State) else st)
        (toSigned (8 * p.timeBytes)
          (toUnsigned p.ulBits ((real : Int) - Y2038_TIME_OFFSET)))
      rw [hclock] at hg
      refine ⟨?_, hg.2⟩
      rw [hg.1]
      constructor
      · intro h
        refine ⟨syncClock_ne_rangeError _ _ _, ?_⟩
        omega
      · intro h
        omega
  · simp only [TestTimeSync, if_neg hc]
    rw [syncClock_tOsTime]
    have hclock : (if st.g_nY2038OffsetActive ≠ 0 ∧ real ≤ Y2038_TIME_OFFSET then
          ({ st with g_nY2038OffsetActive := 0 } : State) else st).clock = st.clock := by
      split_ifs <;> rfl
    have hg := syncClock_gate ok
      (if st.g_nY2038OffsetActive ≠ 0 ∧ real ≤ Y2038_TIME_OFFSET then
        ({ st with g_nY2038OffsetActive := 0 } : State) else st)
      (toSigned (8 * p.timeBytes) (real : Int))
    rw [hclock] at hg
    refine ⟨?_, hg.2⟩
    rw [hg.1]
    constructor
    · intro h
      refine ⟨syncClock_ne_rangeError _ _ _, ?_⟩
      omega
    · intro h
      omega

/-- C14: for every `real` for which `TestTimeSync real` ends with the range error, the
platform has a 4-byte `time_t` and the flag is active after the call; when it was inactive
before the call it is 1 afterwards. -/
theorem C14_activation_before_validation (p : Platform) (ok : Bool) (st : State)
    (real : Nat) (h : (TestTimeSync p ok st real).outcome = Outcome.rangeError) :
    p.timeBytes = 4
      ∧ (TestTimeSync p ok st real).state.g_nY2038OffsetActive ≠ 0
      ∧ (st.g_nY2038OffsetActive = 0
          → (TestTimeSync p ok st real).state.g_nY2038OffsetActive = 1) := by
  by_cases hc : real > Y2038_TIME_OFFSET ∧ p.timeBytes = 4
  · refine ⟨hc.2, ?_⟩
    simp only [TestTimeSync, if_pos hc] at h ⊢
    by_cases hbad : toSigned (8 * p.timeBytes)
          (toUnsigned p.ulBits ((real : Int) - Y2038_TIME_OFFSET)) > Y2038_TIME_OFFSET
        ∨ toSigned (8 * p.timeBytes)
          (toUnsigned p.ulBits ((real : Int) - Y2038_TIME_OFFSET)) < 0
    · simp only [if_pos hbad]
      by_cases hf : st.g_nY2038OffsetActive = 0
      · simp [hf]
      · simp [hf]
    · rw [if_neg hbad] at h
      exact absurd h (syncClock_ne_rangeError _ _ _)
  · simp only [TestTimeSync, if_neg hc] at h
    exact absurd h (syncClock_ne_rangeError _ _ _)

/-- C14 at a concrete input: ILP32, flag inactive before the call, `real = 0xffffffff`. -/
theorem C14_activation_before_validation_witness :
    (⟨32, 4⟩ : Platform).timeBytes = 4
      ∧ (TestTimeSync ⟨32, 4⟩ true ⟨0, 0⟩ 4294967295).state.g_nY2038OffsetActive ≠ 0
      ∧ ((⟨0, 0⟩ : State).g_nY2038OffsetActive = 0
          → (TestTimeSync ⟨32, 4⟩ true ⟨0, 0⟩ 4294967295).state.g_nY2038OffsetActive = 1) :=
  C14_activation_before_validation ⟨32, 4⟩ true ⟨0, 0⟩ 4294967295 (by decide)

/-- C15, as stated, fails: with a 64-bit `unsigned long` and an 8-byte `time_t` the input
`2 ^ 63` is cast to the negative `time_t` value `-2 ^ 63`, so the candidate is not
`real`. -/
theorem C15_cast_changes_candidate :
    (⟨64, 8⟩ : Platform).timeBytes ≠ 4
      ∧ (TestTimeSync ⟨64, 8⟩ true ⟨0, 0⟩ 9223372036854775808).tOsTime
          = -9223372036854775808
      ∧ (TestTimeSync ⟨64, 8⟩ true ⟨0, 0⟩ 9223372036854775808).tOsTime
          ≠ ((9223372036854775808 : Nat) : Int) := by
  decide

/-- C15, amended: on a platform whose `time_t` does not have 4 bytes, for every `real`
(including `real > 0x7fffffff`) `TestTimeSync real` leaves an inactive flag inactive and
does not end with the range error; its candidate is `real` for every `real` that `time_t`
can represent, that is below `2 ^ (8 * sizeof(time_t) - 1)`. -/
theorem C15_platform_gated (p : Platform) (ok : Bool) (st : State) (real : Nat)
    (htb : p.timeBytes ≠ 4) (hpos : 0 < p.timeBytes) :
    (st.g_nY2038OffsetActive = 0
        → (TestTimeSync p ok st real).state.g_nY2038OffsetActive = 0)
      ∧ (TestTimeSync p ok st real).outcome ≠ Outcome.rangeError
      ∧ (real < 2 ^ (8 * p.timeBytes - 1) → (TestTimeSync p ok st real).tOsTime = real) := by
  have hc : ¬ (real > Y2038_TIME_OFFSET ∧ p.timeBytes = 4) := fun h => htb h.2
  simp only [TestTimeSync, if_neg hc, syncClock_flag, syncClock_tOsTime]
  refine ⟨fun hf => ?_, syncClock_ne_rangeError _ _ _, fun hr => ?_⟩
  · simp [hf]
  · have hri : (real : Int) < (2 : Int) ^ (8 * p.timeBytes - 1) := by exact_mod_cast hr
    have hp : (0 : Int) < (2 : Int) ^ (8 * p.timeBytes - 1) := by positivity
    exact toSigned_of_range _ _ (by omega) (by omega) hri

/-- C15, amended, at a concrete input: LP64 with an 8-byte `time_t`, flag inactive,
`real = 0x7fffffff + 100`. -/
theorem C15_platform_gated_witness :
    ((⟨0, 0⟩ : State).g_nY2038OffsetActive = 0
        → (TestTimeSync ⟨64, 8⟩ true ⟨0, 0⟩ 2147483747).state.g_nY2038OffsetActive = 0)
      ∧ (TestTimeSync ⟨64, 8⟩ true ⟨0, 0⟩ 2147483747).outcome ≠ Outcome.rangeError
      ∧ (2147483747 < 2 ^ (8 * (⟨64, 8⟩ : Platform).timeBytes - 1)
          → (TestTimeSync ⟨64, 8⟩ true ⟨0, 0⟩ 2147483747).tOsTime = (2147483747 : Nat)) :=
  C15_platform_gated ⟨64, 8⟩ true ⟨0, 0⟩ 2147483747 (by decide) (by decide)

/-! ## `UnixTimeToTm`: the year loop -/

/-- The loop never returns a year above the one it starts from. -/
theorem adjustYear_le (w days : Nat) :
    ∀ (fuel : Nat) (y : Int) (d : Nat) (Y : Int) (D : Nat),
      adjustYear w days fuel y d = some (Y, D) → Y ≤ y := by
  intro fuel
  induction fuel with
  | zero => intro y d Y D h; simp [adjustYear] at h
  | succ n ih =>
    intro y d Y D h
    rw [adjustYear] at h
    by_cases hgt : d > days
    · rw [if_pos hgt] at h
      simp only [Option.bind_eq_bind, Option.bind_eq_some] at h
      obtain ⟨y1, hy1, l, -, d1, -, hrec⟩ := h
      have hle := ih y1 d1 Y D hrec
      unfold chkInt at hy1
      split_ifs at hy1
      simp only [Option.some.injEq] at hy1
      omega
    · rw [if_neg hgt] at h
      simp only [Option.some.injEq, Prod.mk.injEq] at h
      omega

/-- Below `2147483705` days the year loop stops at the year that holds `days`, after at
most `days / 365` decrements of the guess. -/
theorem yearLoop_spec (w days : Nat) (hw : 32 ≤ w) (hd : days < 2147483705) :
    ∃ Y, 1970 ≤ Y ∧ Y ≤ 1970 + days / 365
      ∧ cumulativeDays Y ≤ days ∧ days < cumulativeDays (Y + 1)
      ∧ yearLoop w days = some ((Y : Int), cumulativeDays Y)
      ∧ ∀ fuel, days / 365 < fuel →
          adjustYear w days fuel ((1970 + days / 365 : Nat) : Int)
            (cumulativeDays (1970 + days / 365)) = some ((Y : Int), cumulativeDays Y) := by
  have h32 := two_pow_32_le w hw
  have hg : 1970 + days / 365 ≤ 5885486 := by omega
  have eg : toUnsigned w (1970 + ((days / 365 : Nat) : Int)) = 1970 + days / 365 := by
    have := toUnsigned_of_lt w (1970 + ((days / 365 : Nat) : Int)) (by omega) (by omega)
    apply Int.ofNat_inj.mp
    rw [this]
    push_cast
    rfl
  have ey : toInt ((1970 + days / 365 : Nat) : Int) = ((1970 + days / 365 : Nat) : Int) :=
    toInt_natCast _ (by omega)
  have hlow := cumulativeDays_lower (1970 + days / 365 + 1)
  have hbeyond : days < cumulativeDays (1970 + days / 365 + 1) := by omega
  obtain ⟨Y, hY1, hY2, hY3, hY4, hY5⟩ :=
    adjustYear_spec w days hw (2 ^ 32) (1970 + days / 365) (by omega) hg
      (by norm_num; omega) hbeyond
  refine ⟨Y, hY1, hY2, hY3, hY4, ?_, ?_⟩
  · simp only [yearLoop, Option.bind_eq_bind, Option.some_bind, eg, ey,
      leap_years_eq _ (show 1970 ≤ 1970 + days / 365 by omega) hg,
      days_in_years_eq w _ hw (show 1970 ≤ 1970 + days / 365 by omega) hg, hY5]
  · intro fuel hf
    obtain ⟨Z, hZ1, -, hZ3, hZ4, hZ5⟩ :=
      adjustYear_spec w days hw fuel (1970 + days / 365) (by omega) hg (by omega) hbeyond
    have e : Z = Y := cumulativeDays_unique Z Y days hZ1 hY1 hZ3 hZ4 hY3 hY4
    rw [hZ5, e]

/-- The year loop never returns a year above the converted guess. -/
theorem yearLoop_le (w days : Nat) (Y : Int) (D : Nat)
    (h : yearLoop w days = some (Y, D)) :
    Y ≤ toInt (toUnsigned w (1970 + ((days / 365 : Nat) : Int))) := by
  simp only [yearLoop, Option.bind_eq_bind, Option.bind_eq_some] at h
  obtain ⟨l, -, d, -, hrec⟩ := h
  exact adjustYear_le w days _ _ _ _ _ hrec

/-- The year that `UnixTimeToTm` reports is the year on which `yearLoop` stops, less 1900:
`yearLoop` is the year part of `UnixTimeToTm`, for every input. -/
theorem UnixTimeToTm_tm_year (w s : Nat) :
    (UnixTimeToTm w s).map (fun t => t.tm_year)
      = (yearLoop w (s / 86400)).bind (fun r => chkInt (r.1 - 1900)) := by
  unfold UnixTimeToTm yearLoop
  generalize (2 : Nat) ^ 32 = fuel
  simp only [Option.bind_eq_bind]
  generalize leap_years _ = o1
  cases o1 with
  | none => rfl
  | some l =>
    rw [Option.some_bind, Option.some_bind]
    generalize days_in_years _ _ _ = o2
    cases o2 with
    | none => rfl
    | some d =>
      rw [Option.some_bind, Option.some_bind]
      generalize adjustYear _ _ _ _ _ = o3
      cases o3 with
      | none => rfl
      | some r =>
        obtain ⟨y, diy⟩ := r
        rw [Option.some_bind, Option.some_bind]
        generalize chkInt _ = o4
        cases o4 with
        | none => rfl
        | some ty => rfl

/-- C16, as stated, fails on a platform with a 64-bit `unsigned long`: for the representable
timestamp `(2 ^ 32 - 1) * 365 * 86400` the guess `1970 + 4294967295` converts to the `int`
1969, so the loop starts below 1970 and cannot stop on a year from 1970 on. -/
theorem C16_loop_starts_below_1970 :
    135446088615120000 < 2 ^ 64
      ∧ toInt (toUnsigned 64 (1970 + ((135446088615120000 / 86400 / 365 : Nat) : Int))) = 1969
      ∧ ¬ ∃ Y D, yearLoop 64 (135446088615120000 / 86400) = some (Y, D) ∧ 1970 ≤ Y := by
  have e1 : toInt (toUnsigned 64 (1970 + ((135446088615120000 / 86400 / 365 : Nat) : Int)))
      = 1969 := by decide
  refine ⟨by decide, e1, ?_⟩
  rintro ⟨Y, D, h, hY⟩
  have hle := yearLoop_le 64 _ Y D h
  rw [e1] at hle
  omega

/-- C16, amended: for every timestamp below `intYearLimit` the year loop terminates: the
cumulative-days function is 0 at 1970 and non-decreasing from 1970 on, the code's
`days_in_years` equals it for every year from 1970 up to the guess, and the loop stops
within `days / 365 + 1` rounds on a year between 1970 and the guess. -/
theorem C16_loop_terminates (w s : Nat) (hw : 32 ≤ w) (hs : s < intYearLimit) :
    cumulativeDays 1970 = 0
      ∧ (∀ a b : Nat, 1970 ≤ a → a ≤ b → cumulativeDays a ≤ cumulativeDays b)
      ∧ (∀ y : Nat, 1970 ≤ y → y ≤ 1970 + s / 86400 / 365 →
          (leap_years (y : Int)).bind (fun l => days_in_years w (y : Int) (toUnsigned w l))
            = some (cumulativeDays y))
      ∧ ∃ Y : Nat, 1970 ≤ Y ∧ Y ≤ 1970 + s / 86400 / 365
          ∧ yearLoop w (s / 86400) = some ((Y : Int), cumulativeDays Y)
          ∧ ∀ fuel : Nat, s / 86400 / 365 < fuel →
              adjustYear w (s / 86400) fuel ((1970 + s / 86400 / 365 : Nat) : Int)
                (cumulativeDays (1970 + s / 86400 / 365))
                = some ((Y : Int), cumulativeDays Y) := by
  have hs1 : s < 185542592112000 := hs
  have hd : s / 86400 < 2147483705 := by omega
  refine ⟨cumulativeDays_1970, cumulativeDays_le, ?_, ?_⟩
  · intro y h1 h2
    rw [leap_years_eq y h1 (by omega), Option.some_bind,
      days_in_years_eq w y hw h1 (by omega)]
  · obtain ⟨Y, hY1, hY2, -, -, hY5, hY6⟩ := yearLoop_spec w (s / 86400) hw hd
    exact ⟨Y, hY1, hY2, hY5, hY6⟩

/-- C16, amended, at a concrete input: the largest value of a 32-bit `unsigned long`. -/
theorem C16_loop_terminates_witness :
    cumulativeDays 1970 = 0
      ∧ (∀ a b : Nat, 1970 ≤ a → a ≤ b → cumulativeDays a ≤ cumulativeDays b)
      ∧ (∀ y : Nat, 1970 ≤ y → y ≤ 1970 + 4294967295 / 86400 / 365 →
          (leap_years (y : Int)).bind (fun l => days_in_years 32 (y : Int) (toUnsigned 32 l))
            = some (cumulativeDays y))
      ∧ ∃ Y : Nat, 1970 ≤ Y ∧ Y ≤ 1970 + 4294967295 / 86400 / 365
          ∧ yearLoop 32 (4294967295 / 86400) = some ((Y : Int), cumulativeDays Y)
          ∧ ∀ fuel : Nat, 4294967295 / 86400 / 365 < fuel →
              adjustYear 32 (4294967295 / 86400) fuel
                ((1970 + 4294967295 / 86400 / 365 : Nat) : Int)
                (cumulativeDays (1970 + 4294967295 / 86400 / 365))
                = some ((Y : Int), cumulativeDays Y) :=
  C16_loop_terminates 32 4294967295 (by decide) (by decide)

/-- C17, as stated, fails on a platform with a 64-bit `unsigned long`: for the representable
timestamp `2 ^ 32 * 365 * 86400` the guess converts to the `int` 1970, below the true year;
the loop stops at once on 1970, and the day count is not below the days before 1971. -/
theorem C17_year_not_exact_64 :
    135446088646656000 < 2 ^ 64
      ∧ yearLoop 64 (135446088646656000 / 86400) = some (1970, 0)
      ∧ ¬ (135446088646656000 / 86400 < daysBeforeYear (1970 + 1)) := by
  decide

/-- C17, amended: for every timestamp below `intYearLimit`, with `days = seconds / 86400`,
the guess `1970 + days / 365` is not below any year that starts on or before `days`, and the
year `Y` on which the loop stops satisfies
`daysBeforeYear Y ≤ days < daysBeforeYear (Y + 1)`; the call reports that year, and its
day of year `days - daysBeforeYear Y` is less than the length of year `Y`. -/
theorem C17_year_exact (w s : Nat) (hw : 32 ≤ w) (hs : s < intYearLimit) :
    (∀ Z : Nat, 1970 ≤ Z → daysBeforeYear Z ≤ s / 86400 → Z ≤ 1970 + s / 86400 / 365)
      ∧ ∃ Y : Nat, 1970 ≤ Y
          ∧ yearLoop w (s / 86400) = some ((Y : Int), daysBeforeYear Y)
          ∧ daysBeforeYear Y ≤ s / 86400 ∧ s / 86400 < daysBeforeYear (Y + 1)
          ∧ s / 86400 - daysBeforeYear Y < yearLength Y
          ∧ ∃ t, UnixTimeToTm w s = some t ∧ t.tm_year = (Y : Int) - 1900
              ∧ t.tm_yday = ((s / 86400 - daysBeforeYear Y : Nat) : Int) := by
  have hs1 : s < 185542592112000 := hs
  have hd : s / 86400 < 2147483705 := by omega
  constructor
  · intro Z hZ hle
    rw [daysBeforeYear_eq Z hZ] at hle
    have := cumulativeDays_lower Z
    omega
  · obtain ⟨Y, hY1, -, hY3, hY4, hY5, -⟩ := yearLoop_spec w (s / 86400) hw hd
    obtain ⟨Z, hZ1, hZ3, hZ4, hZ5⟩ := UnixTimeToTm_eq w s hw hs
    have e : Z = Y := cumulativeDays_unique Z Y (s / 86400) hZ1 hY1 hZ3 hZ4 hY3 hY4
    subst e
    have hsucc := cumulativeDays_succ Z hZ1
    refine ⟨Z, hZ1, ?_⟩
    rw [daysBeforeYear_eq Z hZ1, daysBeforeYear_eq (Z + 1) (by omega)]
    exact ⟨hY5, hY3, hY4, by omega, tmOfYear s Z, hZ5, rfl, rfl⟩

/-- C17, amended, at a concrete input: the largest value of a 32-bit `unsigned long`. -/
theorem C17_year_exact_witness :
    (∀ Z : Nat, 1970 ≤ Z → daysBeforeYear Z ≤ 4294967295 / 86400
        → Z ≤ 1970 + 4294967295 / 86400 / 365)
      ∧ ∃ Y : Nat, 1970 ≤ Y
          ∧ yearLoop 32 (4294967295 / 86400) = some ((Y : Int), daysBeforeYear Y)
          ∧ daysBeforeYear Y ≤ 4294967295 / 86400
          ∧ 4294967295 / 86400 < daysBeforeYear (Y + 1)
          ∧ 4294967295 / 86400 - daysBeforeYear Y < yearLength Y
          ∧ ∃ t, UnixTimeToTm 32 4294967295 = some t ∧ t.tm_year = (Y : Int) - 1900
              ∧ t.tm_yday = ((4294967295 / 86400 - daysBeforeYear Y : Nat) : Int) :=
  C17_year_exact 32 4294967295 (by decide) (by decide)

/-- C18, as stated, fails on a platform with a 64-bit `unsigned long`: for the representable
timestamp `2 ^ 32 * 365 * 86400 + 3661` the month walk runs off the table to index 12 and
the day of month is `-364`. -/
theorem C18_month_index_12 :
    135446088646659661 < 2 ^ 64
      ∧ UnixTimeToTm 64 135446088646659661
          = some { tm_sec := 1, tm_min := 1, tm_hour := 1, tm_mday := -364, tm_mon := 12,
                   tm_year := 70, tm_wday := 1, tm_yday := 0, tm_isdst := -1 }
      ∧ ¬ ((12 : Int) ≤ 11) ∧ ¬ ((1 : Int) ≤ -364) := by
  decide

/-- C18, amended: for every timestamp below `intYearLimit` the call returns a month index
in 0..11, a day of month between 1 and the length of that month in the year reported, an
hour in 0..23, minute and second in 0..59, a weekday in 0..6, and a day of year equal to
the days of the months before `tm_mon` plus `tm_mday - 1`. -/
theorem C18_field_ranges (w s : Nat) (hw : 32 ≤ w) (hs : s < intYearLimit) :
    ∃ t, UnixTimeToTm w s = some t
      ∧ 0 ≤ t.tm_mon ∧ t.tm_mon ≤ 11
      ∧ 1 ≤ t.tm_mday
      ∧ t.tm_mday ≤ monthLength (isLeapYear (t.tm_year + 1900).toNat) t.tm_mon.toNat
      ∧ 0 ≤ t.tm_hour ∧ t.tm_hour ≤ 23
      ∧ 0 ≤ t.tm_min ∧ t.tm_min ≤ 59
      ∧ 0 ≤ t.tm_sec ∧ t.tm_sec ≤ 59
      ∧ 0 ≤ t.tm_wday ∧ t.tm_wday ≤ 6
      ∧ t.tm_yday
          = daysBeforeMonth (isLeapYear (t.tm_year + 1900).toNat) t.tm_mon.toNat
            + t.tm_mday - 1 := by
  obtain ⟨Y, hY, h1, h2, h3⟩ := UnixTimeToTm_eq w s hw hs
  have hsucc := cumulativeDays_succ Y hY
  have hyd : s / 86400 - cumulativeDays Y < (if isLeapYear Y then 366 else 365) := by
    have : yearLength Y = (if isLeapYear Y then 366 else 365) := rfl
    omega
  obtain ⟨hm1, hm2, hm3⟩ := monthWalk_table (isLeapYear Y) _ hyd
  have ey : ((Y : Int) - 1900 + 1900).toNat = Y := by
    rw [show (Y : Int) - 1900 + 1900 = (Y : Int) by ring]
    exact Int.toNat_natCast Y
  refine ⟨tmOfYear s Y, h3, ?_⟩
  simp only [tmOfYear, ey, Int.toNat_natCast]
  generalize monthWalk (days_in_month (isLeapYear Y)) 0 (s / 86400 - cumulativeDays Y)
    = mw at hm1 hm2 hm3 ⊢
  generalize monthLength (isLeapYear Y) mw.1 = len at hm2 ⊢
  generalize daysBeforeMonth (isLeapYear Y) mw.1 = dbm at hm3 ⊢
  refine ⟨by omega, by omega, by omega, by omega, by omega, by omega, by omega, by omega,
    by omega, by omega, by omega, by omega, ?_⟩
  push_cast
  omega

/-- C18, amended, at a concrete input: the largest value of a 32-bit `unsigned long`. -/
theorem C18_field_ranges_witness :
    ∃ t, UnixTimeToTm 32 4294967295 = some t
      ∧ 0 ≤ t.tm_mon ∧ t.tm_mon ≤ 11
      ∧ 1 ≤ t.tm_mday
      ∧ t.tm_mday ≤ monthLength (isLeapYear (t.tm_year + 1900).toNat) t.tm_mon.toNat
      ∧ 0 ≤ t.tm_hour ∧ t.tm_hour ≤ 23
      ∧ 0 ≤ t.tm_min ∧ t.tm_min ≤ 59
      ∧ 0 ≤ t.tm_sec ∧ t.tm_sec ≤ 59
      ∧ 0 ≤ t.tm_wday ∧ t.tm_wday ≤ 6
      ∧ t.tm_yday
          = daysBeforeMonth (isLeapYear (t.tm_year + 1900).toNat) t.tm_mon.toNat
            + t.tm_mday - 1 :=
  C18_field_ranges 32 4294967295 (by decide) (by decide)

theorem daysBeforeMonth_mono (leap : Bool) (a b : Nat) (h : a ≤ b) :
    daysBeforeMonth leap a ≤ daysBeforeMonth leap b := by
  induction b with
  | zero =>
    have : a = 0 := by omega
    rw [this]
  | succ k ih =>
    by_cases hk : a = k + 1
    · rw [hk]
    · have := ih (by omega)
      rw [daysBeforeMonth]
      omega

/-- The fields of `tmOfYear` grow with the timestamp, in the order of `tmBefore`. -/
theorem tmOfYear_before (s1 s2 Y1 Y2 : Nat) (h12 : s1 < s2)
    (hY1 : 1970 ≤ Y1) (hY2 : 1970 ≤ Y2)
    (a1 : cumulativeDays Y1 ≤ s1 / 86400) (b1 : s1 / 86400 < cumulativeDays (Y1 + 1))
    (a2 : cumulativeDays Y2 ≤ s2 / 86400) (b2 : s2 / 86400 < cumulativeDays (Y2 + 1)) :
    tmBefore (tmOfYear s1 Y1) (tmOfYear s2 Y2) := by
  have hle : Y1 ≤ Y2 := by
    by_contra hcon
    have := cumulativeDays_le (Y2 + 1) Y1 (by omega) (by omega)
    omega
  unfold tmBefore
  simp only [tmOfYear]
  rcases Nat.lt_or_eq_of_le hle with hlt | heq
  · left
    omega
  · subst heq
    right
    refine ⟨rfl, ?_⟩
    have hsucc := cumulativeDays_succ Y1 hY1
    have hlen : yearLength Y1 = (if isLeapYear Y1 then 366 else 365) := rfl
    obtain ⟨-, hr1, hs1⟩ := monthWalk_table (isLeapYear Y1) (s1 / 86400 - cumulativeDays Y1)
      (by omega)
    obtain ⟨-, hr2, hs2⟩ := monthWalk_table (isLeapYear Y1) (s2 / 86400 - cumulativeDays Y1)
      (by omega)
    by_cases hday : s1 / 86400 = s2 / 86400
    · rw [hday]
      right
      refine ⟨rfl, ?_⟩
      right
      refine ⟨rfl, ?_⟩
      omega
    · have hdlt : s1 / 86400 - cumulativeDays Y1 < s2 / 86400 - cumulativeDays Y1 := by omega
      generalize monthWalk (days_in_month (isLeapYear Y1)) 0 (s1 / 86400 - cumulativeDays Y1)
        = mw1 at hr1 hs1 ⊢
      generalize monthWalk (days_in_month (isLeapYear Y1)) 0 (s2 / 86400 - cumulativeDays Y1)
        = mw2 at hr2 hs2 ⊢
      have hmle : mw1.1 ≤ mw2.1 := by
        by_contra hcon
        have hmono := daysBeforeMonth_mono (isLeapYear Y1) (mw2.1 + 1) mw1.1 (by omega)
        rw [daysBeforeMonth] at hmono
        omega
      rcases Nat.lt_or_eq_of_le hmle with hmlt | hmeq
      · left
        omega
      · right
        rw [hmeq] at hs1 ⊢
        refine ⟨rfl, ?_⟩
        left
        omega

/-- C19: for all timestamps `s1 < s2` below `intYearLimit`, the range in which the call is
defined (it contains both sides of `0x7fffffff` and every value of a 32-bit
`unsigned long`), the tuple (year, month, day of month, hour, minute, second) returned for
`s1` is lexicographically below the tuple returned for `s2`. -/
theorem C19_order_preserving (w s1 s2 : Nat) (hw : 32 ≤ w) (h12 : s1 < s2)
    (hs : s2 < intYearLimit) :
    ∃ t1 t2, UnixTimeToTm w s1 = some t1 ∧ UnixTimeToTm w s2 = some t2 ∧ tmBefore t1 t2 := by
  obtain ⟨Y1, hY1, a1, b1, e1⟩ := UnixTimeToTm_eq w s1 hw (lt_trans h12 hs)
  obtain ⟨Y2, hY2, a2, b2, e2⟩ := UnixTimeToTm_eq w s2 hw hs
  exact ⟨tmOfYear s1 Y1, tmOfYear s2 Y2, e1, e2,
    tmOfYear_before s1 s2 Y1 Y2 h12 hY1 hY2 a1 b1 a2 b2⟩

/-- C19 at a concrete input: the two timestamps on either side of the `0x7fffffff`
boundary, on a 32-bit `unsigned long`. -/
theorem C19_order_preserving_witness :
    ∃ t1 t2, UnixTimeToTm 32 2147483647 = some t1 ∧ UnixTimeToTm 32 2147483648 = some t2
      ∧ tmBefore t1 t2 :=
  C19_order_preserving 32 2147483647 2147483648 (by decide) (by decide) (by decide)

end Y2038
